import Mathlib

/-
Verification of the im2col "convolution as matrix multiplication" development:
window-index construction, gather (unfold), filter flattening, matrix product,
and reshape, checked against the naive double-sum convolution oracle.
-/

namespace ConvSpec

/-! ### Generic list helpers -/

/-- Pointwise combination of three lists, truncating at the shortest. -/
def zip3With (f : α → β → γ → δ) : List α → List β → List γ → List δ
  | a :: as, b :: bs, c :: cs => f a b c :: zip3With f as bs cs
  | _, _, _ => []

theorem zip3With_length (f : α → β → γ → δ) :
    ∀ (as : List α) (bs : List β) (cs : List γ),
      (zip3With f as bs cs).length = min as.length (min bs.length cs.length) := by
  intro as
  induction as with
  | nil => intro bs cs; cases bs <;> cases cs <;> simp [zip3With]
  | cons a as ih =>
    intro bs cs
    cases bs with
    | nil => simp [zip3With]
    | cons b bs =>
      cases cs with
      | nil => simp [zip3With]
      | cons c cs => simp [zip3With, ih bs cs]; omega

theorem zip3With_getD (f : α → β → γ → δ) :
    ∀ (as : List α) (bs : List β) (cs : List γ) (n : Nat),
      n < as.length → n < bs.length → n < cs.length →
      ∀ (d0 : δ) (da : α) (db : β) (dc : γ),
        (zip3With f as bs cs).getD n d0 =
          f (as.getD n da) (bs.getD n db) (cs.getD n dc) := by
  intro as
  induction as with
  | nil => intro bs cs n h1; simp at h1
  | cons a as ih =>
    intro bs cs n h1 h2 h3 d0 da db dc
    cases bs with
    | nil => simp at h2
    | cons b bs =>
      cases cs with
      | nil => simp at h3
      | cons c cs =>
        cases n with
        | zero => simp [zip3With]
        | succ n =>
          simp only [zip3With, List.getD_cons_succ]
          exact ih bs cs n (by simpa using h1) (by simpa using h2) (by simpa using h3) d0 da db dc

theorem getD_map_range (f : Nat → α) :
    ∀ (n c : Nat) (d0 : α), c < n → (((List.range n).map f).getD c d0) = f c := by
  intro n
  induction n with
  | zero => intro c d0 h; omega
  | succ n ih =>
    intro c d0 h
    rw [List.range_succ, List.map_append]
    by_cases hc : c < n
    · rw [List.getD_append _ _ _ _ (by simpa using hc)]
      exact ih c d0 hc
    · have hcn : c = n := by omega
      subst hcn
      rw [List.getD_append_right _ _ _ _ (by simp)]
      simp

/-- Concatenation of `a` successive blocks `g 0 ++ g 1 ++ ... ++ g (a-1)`. -/
def blockConcat : Nat → (Nat → List α) → List α
  | 0, _ => []
  | a + 1, g => blockConcat a g ++ g a

theorem blockConcat_length (m : Nat) :
    ∀ (a : Nat) (g : Nat → List α), (∀ i, i < a → (g i).length = m) →
      (blockConcat a g).length = a * m := by
  intro a
  induction a with
  | zero => intro g _; simp [blockConcat]
  | succ a ih =>
    intro g hg
    simp only [blockConcat, List.length_append]
    rw [ih g (fun i hi => hg i (by omega)), hg a (by omega)]
    ring

theorem blockConcat_getD (m : Nat) (d0 : α) :
    ∀ (a : Nat) (g : Nat → List α), (∀ i, i < a → (g i).length = m) →
      ∀ c, c < a * m →
        (blockConcat a g).getD c d0 = (g (c / m)).getD (c % m) d0 := by
  intro a
  induction a with
  | zero => intro g _ c hc; omega
  | succ a ih =>
    intro g hg c hc
    have hc' : c < a * m + m := by
      have h2 := hc
      rw [Nat.succ_mul] at h2
      exact h2
    have hm : 0 < m := by
      rcases Nat.eq_zero_or_pos m with h0 | h0
      · subst h0; omega
      · exact h0
    have hlen : (blockConcat a g).length = a * m :=
      blockConcat_length m a g (fun i hi => hg i (by omega))
    by_cases hca : c < a * m
    · rw [blockConcat]
      rw [List.getD_append _ _ _ _ (by omega)]
      exact ih g (fun i hi => hg i (by omega)) c hca
    · have hge : a * m ≤ c := by omega
      have hr : c - a * m < m := by omega
      rw [blockConcat]
      rw [List.getD_append_right _ _ _ _ (by omega)]
      have hceq : c = m * a + (c - a * m) := by
        rw [Nat.mul_comm]; omega
      have hdiv : c / m = a := by
        rw [hceq, Nat.mul_add_div hm, Nat.div_eq_of_lt hr]
        omega
      have hmod : c % m = c - a * m := by
        rw [hceq, Nat.mul_add_mod, Nat.mod_eq_of_lt hr]
        omega
      rw [hdiv, hmod, hlen]

/-! ### Summation helpers -/

theorem foldl_add_hom (h : α → Int) :
    ∀ (l : List α) (i : Int), l.foldl (fun r x => r + h x) i = i + (l.map h).sum := by
  intro l
  induction l with
  | nil => intro i; simp
  | cons a l ih =>
    intro i
    simp only [List.foldl_cons, List.map_cons, List.sum_cons, ih (i + h a)]
    ring

theorem map_range_sum_eq (f : Nat → Int) :
    ∀ n, ((List.range n).map f).sum = ∑ j ∈ Finset.range n, f j := by
  intro n
  induction n with
  | zero => simp
  | succ n ih =>
    rw [List.range_succ, List.map_append, List.sum_append, Finset.sum_range_succ, ih]
    simp

/-- Dot product of two integer lists (sum of element-wise products). -/
def dotL (xs ys : List Int) : Int := (List.zipWith (fun a b => a * b) xs ys).sum

theorem dotL_eq_sum :
    ∀ (xs ys : List Int), xs.length = ys.length →
      dotL xs ys = ∑ c ∈ Finset.range xs.length, xs.getD c 0 * ys.getD c 0 := by
  intro xs
  induction xs with
  | nil => intro ys h; simp [dotL]
  | cons x xs ih =>
    intro ys h
    cases ys with
    | nil => simp at h
    | cons y ys =>
      have h2 : xs.length = ys.length := by simpa using h
      simp only [dotL, List.zipWith_cons_cons, List.sum_cons]
      rw [show (List.zipWith (fun a b => a * b) xs ys).sum = dotL xs ys from rfl, ih ys h2]
      rw [List.length_cons, Finset.sum_range_succ']
      simp [Int.add_comm]

theorem sum_range_add_decomp (F : Nat → Int) (m : Nat) :
    ∀ n, ∑ i ∈ Finset.range (m + n), F i =
      (∑ i ∈ Finset.range m, F i) + ∑ j ∈ Finset.range n, F (m + j) := by
  intro n
  induction n with
  | zero => simp
  | succ n ih =>
    rw [show m + (n + 1) = (m + n) + 1 from rfl, Finset.sum_range_succ, ih,
      Finset.sum_range_succ]
    ring

theorem sum_range_mul_decomp (F : Nat → Int) (b : Nat) :
    ∀ a, ∑ c ∈ Finset.range (a * b), F c =
      ∑ i ∈ Finset.range a, ∑ j ∈ Finset.range b, F (i * b + j) := by
  intro a
  induction a with
  | zero => simp
  | succ a ih =>
    rw [Nat.succ_mul, sum_range_add_decomp, ih, Finset.sum_range_succ]

theorem decode2_div (i j b : Nat) (hj : j < b) : (i * b + j) / b = i := by
  have hb : 0 < b := by omega
  rw [Nat.mul_comm i b, Nat.mul_add_div hb, Nat.div_eq_of_lt hj]
  omega

theorem decode2_mod (i j b : Nat) (hj : j < b) : (i * b + j) % b = j := by
  rw [Nat.mul_comm i b, Nat.mul_add_mod, Nat.mod_eq_of_lt hj]

theorem sum_range_decode2 (F : Nat → Nat → Int) (a b : Nat) :
    ∑ c ∈ Finset.range (a * b), F (c / b) (c % b) =
      ∑ i ∈ Finset.range a, ∑ j ∈ Finset.range b, F i j := by
  rw [sum_range_mul_decomp]
  refine Finset.sum_congr rfl (fun i _ => ?_)
  refine Finset.sum_congr rfl (fun j hj => ?_)
  rw [decode2_div i j b (Finset.mem_range.mp hj), decode2_mod i j b (Finset.mem_range.mp hj)]

theorem sum_range_decode3 (F : Nat → Nat → Nat → Int) (a b c : Nat) :
    ∑ x ∈ Finset.range (a * (b * c)), F (x / (b * c)) ((x / c) % b) (x % c) =
      ∑ i ∈ Finset.range a, ∑ j ∈ Finset.range b, ∑ k ∈ Finset.range c, F i j k := by
  have step1 :
      ∑ x ∈ Finset.range (a * (b * c)), F (x / (b * c)) ((x / c) % b) (x % c) =
        ∑ x ∈ Finset.range (a * (b * c)),
          F (x / (b * c)) ((x % (b * c)) / c) ((x % (b * c)) % c) := by
    refine Finset.sum_congr rfl (fun x _ => ?_)
    have h1 : x % (b * c) / c = x / c % b := by
      rw [Nat.mul_comm b c, Nat.mod_mul_right_div_self]
    have h2 : x % (b * c) % c = x % c :=
      Nat.mod_mod_of_dvd x ⟨b, Nat.mul_comm b c⟩
    rw [h1, h2]
  rw [step1, sum_range_decode2 (fun i y => F i (y / c) (y % c)) a (b * c)]
  refine Finset.sum_congr rfl (fun i _ => ?_)
  rw [sum_range_decode2 (fun j k => F i j k) b c]

/-! ### Source-level definitions (from src/Convolutions.ipynb) -/

/-- The naive double-sum convolution of the source:
for a filter of odd support length 2M+1, out n = sum over m from -M to M of
f (n - m) * g m, written as the source's loop over m (here m = j - M). -/
def cnv (f g : Int → Int) (M : Nat) (n : Int) : Int :=
  (List.range (2 * M + 1)).foldl
    (fun res (j : Nat) =>
      res + f (n - ((j : Int) - (M : Int))) * g ((j : Int) - (M : Int))) 0

/-- The source's dictionary f (keys -1..5, zero-padded at -1 and 5; zero elsewhere). -/
def fdict : Int → Int := fun n =>
  if n = 0 then 1 else if n = 1 then 2 else if n = 2 then -1
  else if n = 3 then 1 else if n = 4 then -3 else 0

/-- The source's dictionary g (keys -1..1). -/
def gdict : Int → Int := fun m =>
  if m = -1 then -1 else if m = 0 then 0 else if m = 1 then 1 else 0

theorem cnv_eq_sum (f g : Int → Int) (M : Nat) (n : Int) :
    cnv f g M n =
      ∑ j ∈ Finset.range (2 * M + 1),
        f (n - ((j : Int) - (M : Int))) * g ((j : Int) - (M : Int)) := by
  unfold cnv
  rw [foldl_add_hom
    (fun (j : Nat) => f (n - ((j : Int) - (M : Int))) * g ((j : Int) - (M : Int)))]
  rw [map_range_sum_eq]
  ring

/-- The 1D one-feature feature column X of the source (f pre-padded with zeros). -/
def Xcol : List Int := [0, 1, 2, -1, 1, -3, 0]

/-- The 1D one-feature filter column W of the source (the reversal of g). -/
def Wcol : List Int := [1, 0, -1]

/-- The literal fancy-index table ix of the source. -/
def ixTab : List (List Nat) :=
  [[0, 1, 2], [1, 2, 3], [2, 3, 4], [3, 4, 5], [4, 5, 6]]

/-- numpy-style gather X[ix] of a vector by a matrix of indices. -/
def gatherIx (X : List Int) (ix : List (List Nat)) : List (List Int) :=
  ix.map (fun r => r.map (fun i => X.getD i 0))

/-- Matrix-vector product, one dot product per row. -/
def matvec (A : List (List Int)) (v : List Int) : List Int :=
  A.map (fun row => dotL row v)

/-- The source's Z = Xhat . W for the 1D one-feature example. -/
def Zsrc : List Int := matvec (gatherIx Xcol ixTab) Wcol

theorem Zsrc_value : Zsrc = [-2, 2, 1, 2, 1] := by decide

/-- Closed-form generalization of the source's literal ix table:
window p reads input positions p, p+1, ..., p+k-1. -/
def ixGen (n k : Nat) : List (List Nat) :=
  (List.range (n - k + 1)).map (fun p => (List.range k).map (fun j => p + j))

theorem ixGen_matches_src : ixGen 7 3 = ixTab := by decide

/-- The source's matmul pipeline for one spatial dimension and one feature,
generalized over input length n and filter length k: gather with the window
index table, then one dot product per window. -/
def corr1 (X : Nat → Int) (n k : Nat) (W : Nat → Int) : List Int :=
  matvec ((ixGen n k).map (fun r => r.map X)) ((List.range k).map W)

/-- The source's 1D two-channel feature matrix X (7 x 2). -/
def X7x2 : List (List Int) :=
  [[0, 1], [1, 3], [2, -2], [-1, 2], [1, 0], [-3, 1], [0, -1]]

/-- The source's 1D two-channel filter W (3 x 2), before flattening. -/
def W3x2 : List (List Int) := [[1, -1], [0, 0], [-1, 1]]

/-- The source's literal position-index table ps_ix (1D, two channels). -/
def psIxTab : List (List Nat) :=
  [[0, 0, 1, 1, 2, 2], [1, 1, 2, 2, 3, 3], [2, 2, 3, 3, 4, 4],
   [3, 3, 4, 4, 5, 5], [4, 4, 5, 5, 6, 6]]

/-- The source's literal feature-index table ft_ix (1D, two channels). -/
def ftIxTab : List (List Nat) :=
  [[0, 1, 0, 1, 0, 1], [0, 1, 0, 1, 0, 1], [0, 1, 0, 1, 0, 1],
   [0, 1, 0, 1, 0, 1], [0, 1, 0, 1, 0, 1]]

/-- The source's random 5 x 5 matrix X of the 2D one-feature example. -/
def X5x5 : List (List Int) :=
  [[0, -3, -2, -1, 0], [-3, 2, -3, -3, 1], [1, 0, -2, -2, 0],
   [1, -1, 0, -1, -2], [0, -3, 0, 1, -2]]

/-- The source's random 3 x 3 filter W of the 2D one-feature example. -/
def W3x3 : List (List Int) := [[-2, 2, 2], [-2, -3, -1], [0, 1, 1]]

/-- The source's literal h_ix table (2D, one feature). -/
def hIxTab : List (List Nat) :=
  [[0, 0, 0, 1, 1, 1, 2, 2, 2], [0, 0, 0, 1, 1, 1, 2, 2, 2], [0, 0, 0, 1, 1, 1, 2, 2, 2],
   [1, 1, 1, 2, 2, 2, 3, 3, 3], [1, 1, 1, 2, 2, 2, 3, 3, 3], [1, 1, 1, 2, 2, 2, 3, 3, 3],
   [2, 2, 2, 3, 3, 3, 4, 4, 4], [2, 2, 2, 3, 3, 3, 4, 4, 4], [2, 2, 2, 3, 3, 3, 4, 4, 4]]

/-- The source's literal w_ix table (2D, one feature). -/
def wIxTab : List (List Nat) :=
  [[0, 1, 2, 0, 1, 2, 0, 1, 2], [1, 2, 3, 1, 2, 3, 1, 2, 3], [2, 3, 4, 2, 3, 4, 2, 3, 4],
   [0, 1, 2, 0, 1, 2, 0, 1, 2], [1, 2, 3, 1, 2, 3, 1, 2, 3], [2, 3, 4, 2, 3, 4, 2, 3, 4],
   [0, 1, 2, 0, 1, 2, 0, 1, 2], [1, 2, 3, 1, 2, 3, 1, 2, 3], [2, 3, 4, 2, 3, 4, 2, 3, 4]]

/-! ### Spec-modelled core: window-index builder and convolve -/

/-- Modelled from the spec: the single error of the error taxonomy, raised on any
shape violation. -/
inductive ConvErr where
  | InvalidShape
  deriving DecidableEq

/-- Modelled from the spec: one row of the h index array for spatial rank 1 —
for anchor p, enumerate window offsets in order, channels innermost. -/
def win1H (k d p : Nat) : List Nat :=
  blockConcat k (fun oh => (List.range d).map (fun _ => p + oh))

/-- Modelled from the spec: one row of the channel index array for spatial
rank 1 — channels 0..d-1 enumerated innermost under each window offset. -/
def win1C (k d : Nat) : List Nat :=
  blockConcat k (fun _ => (List.range d).map (fun ch => ch))

/-- Modelled from the spec: the rank-1 window index arrays (h_idx, ch_idx),
one row per anchor position 0..n-k, each of length k*d. -/
def build1rows (n k d : Nat) : List (List Nat) × List (List Nat) :=
  ((List.range (n - k + 1)).map (fun p => win1H k d p),
   (List.range (n - k + 1)).map (fun _ => win1C k d))

/-- Modelled from the spec: build_window_indices for spatial rank 1 — validates
the shapes eagerly (InvalidShape if k > n, any dimension non-positive, or the
channel count is below 1) and otherwise returns the index arrays. -/
def build_window_indices1 (n k d : Nat) :
    Except ConvErr (List (List Nat) × List (List Nat)) :=
  if 1 ≤ k ∧ k ≤ n ∧ 1 ≤ d then .ok (build1rows n k d) else .error .InvalidShape

/-- Modelled from the spec: one row of the h index array for spatial rank 2 —
offsets row-major (height outer, width inner), channels innermost. -/
def win2H (kh kw d ph : Nat) : List Nat :=
  blockConcat kh (fun oh => blockConcat kw (fun _ => (List.range d).map (fun _ => ph + oh)))

/-- Modelled from the spec: one row of the w index array for spatial rank 2. -/
def win2W (kh kw d pw : Nat) : List Nat :=
  blockConcat kh (fun _ => blockConcat kw (fun ow => (List.range d).map (fun _ => pw + ow)))

/-- Modelled from the spec: one row of the channel index array for spatial rank 2. -/
def win2C (kh kw d : Nat) : List Nat :=
  blockConcat kh (fun _ => blockConcat kw (fun _ => (List.range d).map (fun ch => ch)))

/-- Modelled from the spec: stack one row per anchor, anchors enumerated
row-major over the two spatial axes. -/
def anchorRows (Ph Pw : Nat) (row : Nat → Nat → List Nat) : List (List Nat) :=
  blockConcat Ph (fun ph => (List.range Pw).map (fun pw => row ph pw))

/-- Modelled from the spec: the rank-2 window index arrays (h_idx, w_idx, ch_idx). -/
def build2rows (nh nw kh kw d : Nat) :
    List (List Nat) × List (List Nat) × List (List Nat) :=
  (anchorRows (nh - kh + 1) (nw - kw + 1) (fun ph _ => win2H kh kw d ph),
   anchorRows (nh - kh + 1) (nw - kw + 1) (fun _ pw => win2W kh kw d pw),
   anchorRows (nh - kh + 1) (nw - kw + 1) (fun _ _ => win2C kh kw d))

/-- Modelled from the spec: build_window_indices for spatial rank 2 — validates
the shapes eagerly and otherwise returns the three index arrays. -/
def build_window_indices2 (nh nw kh kw d : Nat) :
    Except ConvErr (List (List Nat) × List (List Nat) × List (List Nat)) :=
  if 1 ≤ kh ∧ kh ≤ nh ∧ 1 ≤ kw ∧ kw ≤ nw ∧ 1 ≤ d then .ok (build2rows nh nw kh kw d)
  else .error .InvalidShape

/-- Modelled from the spec: row-major flattening of a rank-1 filter (k x d) to
a length-k*d column, offsets outer, channels inner. -/
def flatten1 (k d : Nat) (W : Nat → Nat → Int) : List Int :=
  blockConcat k (fun oh => (List.range d).map (fun ch => W oh ch))

/-- Modelled from the spec: row-major flattening of a rank-1 batched filter
(k x d x o) to a (k*d) x o matrix, keeping the trailing output-filter axis. -/
def flatten1o (k d o : Nat) (W : Nat → Nat → Nat → Int) : List (List Int) :=
  blockConcat k (fun oh => (List.range d).map (fun ch => (List.range o).map (fun j => W oh ch j)))

/-- Modelled from the spec: row-major flattening of a rank-2 filter
(kh x kw x d) to a length-kh*kw*d column. -/
def flatten2 (kh kw d : Nat) (W : Nat → Nat → Nat → Int) : List Int :=
  blockConcat kh (fun oh => blockConcat kw (fun ow => (List.range d).map (fun ch => W oh ow ch)))

/-- Modelled from the spec: row-major flattening of a rank-2 batched filter
(kh x kw x d x o) to a (kh*kw*d) x o matrix. -/
def flatten2o (kh kw d o : Nat) (W : Nat → Nat → Nat → Nat → Int) : List (List Int) :=
  blockConcat kh (fun oh =>
    blockConcat kw (fun ow =>
      (List.range d).map (fun ch => (List.range o).map (fun j => W oh ow ch j))))

/-- numpy-style gather X[h_ix, ft_ix] of a rank-2 tensor at paired index arrays. -/
def gather2 (X : Nat → Nat → Int) (h ch : List (List Nat)) : List (List Int) :=
  List.zipWith (fun hr cr => List.zipWith (fun i c => X i c) hr cr) h ch

/-- numpy-style gather X[h_ix, w_ix, ft_ix] of a rank-3 tensor at three paired
index arrays. -/
def gather3 (X : Nat → Nat → Nat → Int) (h w ch : List (List Nat)) : List (List Int) :=
  zip3With (fun hr wr cr => zip3With (fun i j c => X i j c) hr wr cr) h w ch

/-- Column j of a matrix stored as a list of rows. -/
def colOf (B : List (List Int)) (j : Nat) : List Int := B.map (fun br => br.getD j 0)

/-- Matrix-matrix product against a K x o matrix, computed column by column. -/
def matmulCols (A : List (List Int)) (B : List (List Int)) (o : Nat) : List (List Int) :=
  A.map (fun row => (List.range o).map (fun j => dotL row (colOf B j)))

/-- Row-major reshape of a flat list of P = Ph*Pw entries to Ph rows of Pw. -/
def reshapeGrid (Ph Pw : Nat) (flat : List α) (d0 : α) : List (List α) :=
  (List.range Ph).map (fun i => (List.range Pw).map (fun j => flat.getD (i * Pw + j) d0))

/-- Modelled from the spec: the gather-matmul body of convolve for spatial
rank 1 without an output-filter axis. -/
def conv1Core (n d : Nat) (X : Nat → Nat → Int) (k : Nat) (W : Nat → Nat → Int) : List Int :=
  matvec (gather2 X (build1rows n k d).1 (build1rows n k d).2) (flatten1 k d W)

/-- Modelled from the spec: convolve for spatial rank 1 without an
output-filter axis; the input has channel size dX, the filter dW. -/
def convolve1 (n dX : Nat) (X : Nat → Nat → Int) (k dW : Nat) (W : Nat → Nat → Int) :
    Except ConvErr (List Int) :=
  if dX = dW then
    match build_window_indices1 n k dX with
    | .error e => .error e
    | .ok _ => .ok (conv1Core n dX X k W)
  else .error .InvalidShape

/-- Modelled from the spec: the gather-matmul body of convolve for spatial
rank 1 with an output-filter axis of size o. -/
def conv1oCore (n d : Nat) (X : Nat → Nat → Int) (k o : Nat) (W : Nat → Nat → Nat → Int) :
    List (List Int) :=
  matmulCols (gather2 X (build1rows n k d).1 (build1rows n k d).2) (flatten1o k d o W) o

/-- Modelled from the spec: convolve for spatial rank 1 with an output-filter
axis of size o. -/
def convolve1o (n dX : Nat) (X : Nat → Nat → Int) (k dW o : Nat)
    (W : Nat → Nat → Nat → Int) : Except ConvErr (List (List Int)) :=
  if dX = dW ∧ 1 ≤ o then
    match build_window_indices1 n k dX with
    | .error e => .error e
    | .ok _ => .ok (conv1oCore n dX X k o W)
  else .error .InvalidShape

/-- Modelled from the spec: the gather-matmul-reshape body of convolve for
spatial rank 2 without an output-filter axis. -/
def conv2Core (nh nw d : Nat) (X : Nat → Nat → Nat → Int) (kh kw : Nat)
    (W : Nat → Nat → Nat → Int) : List (List Int) :=
  reshapeGrid (nh - kh + 1) (nw - kw + 1)
    (matvec
      (gather3 X (build2rows nh nw kh kw d).1 (build2rows nh nw kh kw d).2.1
        (build2rows nh nw kh kw d).2.2)
      (flatten2 kh kw d W)) 0

/-- Modelled from the spec: convolve for spatial rank 2 without an
output-filter axis. -/
def convolve2 (nh nw dX : Nat) (X : Nat → Nat → Nat → Int) (kh kw dW : Nat)
    (W : Nat → Nat → Nat → Int) : Except ConvErr (List (List Int)) :=
  if dX = dW then
    match build_window_indices2 nh nw kh kw dX with
    | .error e => .error e
    | .ok _ => .ok (conv2Core nh nw dX X kh kw W)
  else .error .InvalidShape

/-- Modelled from the spec: the gather-matmul-reshape body of convolve for
spatial rank 2 with an output-filter axis of size o. -/
def conv2oCore (nh nw d : Nat) (X : Nat → Nat → Nat → Int) (kh kw o : Nat)
    (W : Nat → Nat → Nat → Nat → Int) : List (List (List Int)) :=
  reshapeGrid (nh - kh + 1) (nw - kw + 1)
    (matmulCols
      (gather3 X (build2rows nh nw kh kw d).1 (build2rows nh nw kh kw d).2.1
        (build2rows nh nw kh kw d).2.2)
      (flatten2o kh kw d o W) o) []

/-- Modelled from the spec: convolve for spatial rank 2 with an output-filter
axis of size o. -/
def convolve2o (nh nw dX : Nat) (X : Nat → Nat → Nat → Int) (kh kw dW o : Nat)
    (W : Nat → Nat → Nat → Nat → Int) : Except ConvErr (List (List (List Int))) :=
  if dX = dW ∧ 1 ≤ o then
    match build_window_indices2 nh nw kh kw dX with
    | .error e => .error e
    | .ok _ => .ok (conv2oCore nh nw dX X kh kw o W)
  else .error .InvalidShape

/-! ### Remaining source data and grounding checks -/

/-- Element lookup of a list-of-lists matrix (out of range reads 0). -/
def at2 (X : List (List Int)) (i j : Nat) : Int := (X.getD i []).getD j 0

/-- Element lookup of a rank-3 nested-list tensor (out of range reads 0). -/
def at3 (X : List (List (List Int))) (i j c : Nat) : Int :=
  ((X.getD i []).getD j []).getD c 0

/-- The source's random 5 x 5 x 2 feature tensor (stored h, w, channel). -/
def X5x5x2 : List (List (List Int)) :=
  [[[-3, -1], [1, -3], [1, 2], [0, -3], [1, 0]],
   [[-2, -3], [2, 1], [-2, -1], [0, 2], [-3, 0]],
   [[-1, 0], [-2, 2], [-2, 2], [0, -1], [-1, 2]],
   [[1, 2], [2, -3], [2, -3], [1, 0], [0, 1]],
   [[-1, -2], [-1, -3], [0, 0], [1, 1], [0, 2]]]

/-- The source's random 3 x 3 x 2 filter (stored h, w, channel). -/
def W3x3x2 : List (List (List Int)) :=
  [[[-2, -3], [1, 1], [1, 1]],
   [[-1, -1], [1, 0], [0, 0]],
   [[2, 2], [-2, -2], [-3, -1]]]

/-- The source's random (18, 2) two-filter weight matrix of the final example. -/
def W18x2 : List (List Int) :=
  [[-2, 0], [1, -1], [2, -3], [1, -2], [-3, 2], [-1, -1], [0, 0], [-2, -1], [-3, 1],
   [0, 0], [2, -1], [1, -3], [-3, -3], [-2, 1], [-2, -3], [2, 0], [-2, 1], [1, 2]]

theorem build1rows_matches_src : build1rows 7 3 2 = (psIxTab, ftIxTab) := by decide

theorem build2rows_matches_src :
    (build2rows 5 5 3 3 1).1 = hIxTab ∧ (build2rows 5 5 3 3 1).2.1 = wIxTab := by decide

theorem conv1Core_matches_src : conv1Core 7 2 (at2 X7x2) 3 (at2 W3x2) = [-5, 1, 3, 1, 0] := by
  decide

theorem conv2Core_matches_src :
    conv2Core 5 5 1 (fun i j _ => at2 X5x5 i j) 3 3 (fun oh ow _ => at2 W3x3 oh ow) =
      [[-9, 4, 14], [3, -9, 9], [-8, -4, 4]] := by decide

theorem conv2Core_matches_src_2ch :
    conv2Core 5 5 2 (at3 X5x5x2) 3 3 (at3 W3x3x2) =
      [[19, 3, -4], [17, -13, 1], [3, -12, -6]] := by decide

theorem flatten2_matches_src :
    flatten2 3 3 2 (at3 W3x3x2) =
      [-2, -3, 1, 1, 1, 1, -1, -1, 1, 0, 0, 0, 2, 2, -2, -2, -3, -1] := by decide

theorem conv2oCore_matches_src :
    conv2oCore 5 5 2 (at3 X5x5x2) 3 3 2
        (fun oh ow ch j => at2 W18x2 ((oh * 3 + ow) * 2 + ch) j) =
      [[[11, 25], [17, 2], [-6, 21]], [[-7, -25], [-21, -10], [9, -26]],
       [[-2, 7], [15, 8], [12, -2]]] := by decide

theorem convolve1_matches_src :
    convolve1 7 1 (fun i _ => Xcol.getD i 0) 3 1 (fun j _ => Wcol.getD j 0) =
      .ok [-2, 2, 1, 2, 1] := by rfl

/-! ### Decode lemmas: closed forms of the generated index arrays -/

/-- Spatial height offset encoded by flattened filter position c
(spatial-major, channel-minor ordering). -/
def offH (kw d c : Nat) : Nat := c / (kw * d)

/-- Spatial width offset encoded by flattened filter position c. -/
def offW (kw d c : Nat) : Nat := c / d % kw

/-- Channel encoded by flattened filter position c (innermost index). -/
def offC (d c : Nat) : Nat := c % d

theorem getD_map (f : α → β) :
    ∀ (l : List α) (n : Nat), n < l.length →
      ∀ (d0 : β) (da : α), (l.map f).getD n d0 = f (l.getD n da) := by
  intro l
  induction l with
  | nil => intro n h; simp at h
  | cons a l ih =>
    intro n h d0 da
    cases n with
    | zero => simp
    | succ n => simp only [List.map_cons, List.getD_cons_succ]; exact ih n (by simpa using h) d0 da

theorem zipWith_getD (f : α → β → γ) :
    ∀ (as : List α) (bs : List β) (n : Nat), n < as.length → n < bs.length →
      ∀ (d0 : γ) (da : α) (db : β),
        (List.zipWith f as bs).getD n d0 = f (as.getD n da) (bs.getD n db) := by
  intro as
  induction as with
  | nil => intro bs n h; simp at h
  | cons a as ih =>
    intro bs n h1 h2 d0 da db
    cases bs with
    | nil => simp at h2
    | cons b bs =>
      cases n with
      | zero => simp
      | succ n =>
        simp only [List.zipWith_cons_cons, List.getD_cons_succ]
        exact ih bs n (by simpa using h1) (by simpa using h2) d0 da db

theorem win1H_length (k d p : Nat) : (win1H k d p).length = k * d :=
  blockConcat_length d k _ (fun _ _ => by simp)

theorem win1C_length (k d : Nat) : (win1C k d).length = k * d :=
  blockConcat_length d k _ (fun _ _ => by simp)

theorem flatten1_length (k d : Nat) (W : Nat → Nat → Int) : (flatten1 k d W).length = k * d :=
  blockConcat_length d k _ (fun _ _ => by simp)

theorem flatten1o_length (k d o : Nat) (W : Nat → Nat → Nat → Int) :
    (flatten1o k d o W).length = k * d :=
  blockConcat_length d k _ (fun _ _ => by simp)

theorem pos_of_lt_mul {k d c : Nat} (hc : c < k * d) : 0 < d := by
  rcases Nat.eq_zero_or_pos d with h0 | h0
  · subst h0; omega
  · exact h0

theorem win1H_getD (k d p c : Nat) (hc : c < k * d) :
    (win1H k d p).getD c 0 = p + c / d := by
  have hd : 0 < d := pos_of_lt_mul hc
  rw [win1H, blockConcat_getD d 0 k _ (fun _ _ => by simp) c hc,
    getD_map_range _ d (c % d) 0 (Nat.mod_lt c hd)]

theorem win1C_getD (k d c : Nat) (hc : c < k * d) :
    (win1C k d).getD c 0 = c % d := by
  have hd : 0 < d := pos_of_lt_mul hc
  rw [win1C, blockConcat_getD d 0 k _ (fun _ _ => by simp) c hc,
    getD_map_range _ d (c % d) 0 (Nat.mod_lt c hd)]

theorem flatten1_getD (k d c : Nat) (W : Nat → Nat → Int) (hc : c < k * d) :
    (flatten1 k d W).getD c 0 = W (c / d) (c % d) := by
  have hd : 0 < d := pos_of_lt_mul hc
  rw [flatten1, blockConcat_getD d 0 k _ (fun _ _ => by simp) c hc,
    getD_map_range _ d (c % d) 0 (Nat.mod_lt c hd)]

theorem flatten1o_getD (k d o c : Nat) (W : Nat → Nat → Nat → Int) (hc : c < k * d) :
    (flatten1o k d o W).getD c [] =
      (List.range o).map (fun j => W (c / d) (c % d) j) := by
  have hd : 0 < d := pos_of_lt_mul hc
  rw [flatten1o, blockConcat_getD d [] k _ (fun _ _ => by simp) c hc,
    getD_map_range _ d (c % d) [] (Nat.mod_lt c hd)]

theorem win2H_length (kh kw d ph : Nat) : (win2H kh kw d ph).length = kh * (kw * d) :=
  blockConcat_length (kw * d) kh _
    (fun _ _ => blockConcat_length d kw _ (fun _ _ => by simp))

theorem win2W_length (kh kw d pw : Nat) : (win2W kh kw d pw).length = kh * (kw * d) :=
  blockConcat_length (kw * d) kh _
    (fun _ _ => blockConcat_length d kw _ (fun _ _ => by simp))

theorem win2C_length (kh kw d : Nat) : (win2C kh kw d).length = kh * (kw * d) :=
  blockConcat_length (kw * d) kh _
    (fun _ _ => blockConcat_length d kw _ (fun _ _ => by simp))

theorem flatten2_length (kh kw d : Nat) (W : Nat → Nat → Nat → Int) :
    (flatten2 kh kw d W).length = kh * (kw * d) :=
  blockConcat_length (kw * d) kh _
    (fun _ _ => blockConcat_length d kw _ (fun _ _ => by simp))

theorem flatten2o_length (kh kw d o : Nat) (W : Nat → Nat → Nat → Nat → Int) :
    (flatten2o kh kw d o W).length = kh * (kw * d) :=
  blockConcat_length (kw * d) kh _
    (fun _ _ => blockConcat_length d kw _ (fun _ _ => by simp))

theorem inner_lt_of_lt_mul {kh kw d c : Nat} (hc : c < kh * (kw * d)) : c % (kw * d) < kw * d :=
  Nat.mod_lt c (pos_of_lt_mul hc)

theorem win2H_getD (kh kw d ph c : Nat) (hc : c < kh * (kw * d)) :
    (win2H kh kw d ph).getD c 0 = ph + offH kw d c := by
  have hkwd : 0 < kw * d := pos_of_lt_mul hc
  have hd : 0 < d := pos_of_lt_mul (inner_lt_of_lt_mul hc)
  rw [win2H, blockConcat_getD (kw * d) 0 kh _
      (fun _ _ => blockConcat_length d kw _ (fun _ _ => by simp)) c hc,
    blockConcat_getD d 0 kw _ (fun _ _ => by simp) _ (inner_lt_of_lt_mul hc),
    getD_map_range _ d _ 0 (Nat.mod_lt _ hd)]
  rfl

theorem win2W_getD (kh kw d pw c : Nat) (hc : c < kh * (kw * d)) :
    (win2W kh kw d pw).getD c 0 = pw + offW kw d c := by
  have hkwd : 0 < kw * d := pos_of_lt_mul hc
  have hd : 0 < d := pos_of_lt_mul (inner_lt_of_lt_mul hc)
  rw [win2W, blockConcat_getD (kw * d) 0 kh _
      (fun _ _ => blockConcat_length d kw _ (fun _ _ => by simp)) c hc,
    blockConcat_getD d 0 kw _ (fun _ _ => by simp) _ (inner_lt_of_lt_mul hc),
    getD_map_range _ d _ 0 (Nat.mod_lt _ hd)]
  show pw + c % (kw * d) / d = pw + offW kw d c
  rw [offW, Nat.mul_comm kw d, Nat.mod_mul_right_div_self]

theorem win2C_getD (kh kw d c : Nat) (hc : c < kh * (kw * d)) :
    (win2C kh kw d).getD c 0 = offC d c := by
  have hd : 0 < d := pos_of_lt_mul (inner_lt_of_lt_mul hc)
  rw [win2C, blockConcat_getD (kw * d) 0 kh _
      (fun _ _ => blockConcat_length d kw _ (fun _ _ => by simp)) c hc,
    blockConcat_getD d 0 kw _ (fun _ _ => by simp) _ (inner_lt_of_lt_mul hc),
    getD_map_range _ d _ 0 (Nat.mod_lt _ hd)]
  show c % (kw * d) % d = offC d c
  rw [offC, Nat.mod_mod_of_dvd c ⟨kw, Nat.mul_comm kw d⟩]

theorem flatten2_getD (kh kw d c : Nat) (W : Nat → Nat → Nat → Int)
    (hc : c < kh * (kw * d)) :
    (flatten2 kh kw d W).getD c 0 = W (offH kw d c) (offW kw d c) (offC d c) := by
  have hd : 0 < d := pos_of_lt_mul (inner_lt_of_lt_mul hc)
  rw [flatten2, blockConcat_getD (kw * d) 0 kh _
      (fun _ _ => blockConcat_length d kw _ (fun _ _ => by simp)) c hc,
    blockConcat_getD d 0 kw _ (fun _ _ => by simp) _ (inner_lt_of_lt_mul hc),
    getD_map_range _ d _ 0 (Nat.mod_lt _ hd)]
  show W (c / (kw * d)) (c % (kw * d) / d) (c % (kw * d) % d) = _
  rw [offH, offW, offC, Nat.mul_comm kw d, Nat.mod_mul_right_div_self,
    Nat.mod_mod_of_dvd c ⟨kw, rfl⟩]

theorem flatten2o_getD (kh kw d o c : Nat) (W : Nat → Nat → Nat → Nat → Int)
    (hc : c < kh * (kw * d)) :
    (flatten2o kh kw d o W).getD c [] =
      (List.range o).map (fun j => W (offH kw d c) (offW kw d c) (offC d c) j) := by
  have hd : 0 < d := pos_of_lt_mul (inner_lt_of_lt_mul hc)
  rw [flatten2o, blockConcat_getD (kw * d) [] kh _
      (fun _ _ => blockConcat_length d kw _ (fun _ _ => by simp)) c hc,
    blockConcat_getD d [] kw _ (fun _ _ => by simp) _ (inner_lt_of_lt_mul hc),
    getD_map_range _ d _ [] (Nat.mod_lt _ hd)]
  show (List.range o).map (fun j => W (c / (kw * d)) (c % (kw * d) / d) (c % (kw * d) % d) j) = _
  rw [offH, offW, offC, Nat.mul_comm kw d, Nat.mod_mul_right_div_self,
    Nat.mod_mod_of_dvd c ⟨kw, rfl⟩]

theorem anchorRows_length (Ph Pw : Nat) (row : Nat → Nat → List Nat) :
    (anchorRows Ph Pw row).length = Ph * Pw :=
  blockConcat_length Pw Ph _ (fun _ _ => by simp)

theorem anchorRows_getD (Ph Pw : Nat) (row : Nat → Nat → List Nat) (p : Nat)
    (hp : p < Ph * Pw) :
    (anchorRows Ph Pw row).getD p [] = row (p / Pw) (p % Pw) := by
  have hPw : 0 < Pw := pos_of_lt_mul hp
  rw [anchorRows, blockConcat_getD Pw [] Ph _ (fun _ _ => by simp) p hp,
    getD_map_range _ Pw _ [] (Nat.mod_lt _ hPw)]

theorem build1rows_fst_length (n k d : Nat) : (build1rows n k d).1.length = n - k + 1 := by
  simp [build1rows]

theorem build1rows_snd_length (n k d : Nat) : (build1rows n k d).2.length = n - k + 1 := by
  simp [build1rows]

theorem build1rows_fst_getD (n k d p : Nat) (hp : p < n - k + 1) :
    (build1rows n k d).1.getD p [] = win1H k d p := by
  rw [build1rows]
  exact getD_map_range _ _ p [] hp

theorem build1rows_snd_getD (n k d p : Nat) (hp : p < n - k + 1) :
    (build1rows n k d).2.getD p [] = win1C k d := by
  rw [build1rows]
  exact getD_map_range _ _ p [] hp

/-! ### Entry formulas for the convolve cores -/

theorem colOf_length (B : List (List Int)) (j : Nat) : (colOf B j).length = B.length := by
  simp [colOf]

theorem colOf_getD (B : List (List Int)) (j c : Nat) (hc : c < B.length) :
    (colOf B j).getD c 0 = (B.getD c []).getD j 0 := by
  rw [colOf, getD_map _ B c hc 0 []]

theorem gather2_row (X : Nat → Nat → Int) (n k d p : Nat) (hp : p < n - k + 1) :
    (gather2 X (build1rows n k d).1 (build1rows n k d).2).getD p [] =
      List.zipWith (fun i c => X i c) (win1H k d p) (win1C k d) := by
  rw [gather2, zipWith_getD _ _ _ p (by rw [build1rows_fst_length]; exact hp)
    (by rw [build1rows_snd_length]; exact hp) [] [] []]
  rw [build1rows_fst_getD n k d p hp, build1rows_snd_getD n k d p hp]

theorem gather2_length (X : Nat → Nat → Int) (n k d : Nat) :
    (gather2 X (build1rows n k d).1 (build1rows n k d).2).length = n - k + 1 := by
  rw [gather2, List.length_zipWith, build1rows_fst_length, build1rows_snd_length]
  omega

theorem row1_getD (X : Nat → Nat → Int) (k d p c : Nat) (hc : c < k * d) :
    (List.zipWith (fun i ch => X i ch) (win1H k d p) (win1C k d)).getD c 0 =
      X (p + c / d) (c % d) := by
  rw [zipWith_getD _ _ _ c (by rw [win1H_length]; exact hc)
    (by rw [win1C_length]; exact hc) 0 0 0]
  rw [win1H_getD k d p c hc, win1C_getD k d c hc]

theorem row1_length (X : Nat → Nat → Int) (k d p : Nat) :
    (List.zipWith (fun i ch => X i ch) (win1H k d p) (win1C k d)).length = k * d := by
  rw [List.length_zipWith, win1H_length, win1C_length]
  omega

/-- Entry formula for rank-1 convolve without an output-filter axis: each
output position is the double sum over window offset and channel. -/
theorem conv1Core_entry (n d : Nat) (X : Nat → Nat → Int) (k : Nat) (W : Nat → Nat → Int)
    (p : Nat) (hp : p < n - k + 1) :
    (conv1Core n d X k W).getD p 0 =
      ∑ oh ∈ Finset.range k, ∑ ch ∈ Finset.range d, X (p + oh) ch * W oh ch := by
  rw [conv1Core, matvec]
  rw [getD_map _ _ p (by rw [gather2_length]; exact hp) 0 []]
  rw [gather2_row X n k d p hp]
  rw [dotL_eq_sum _ _ (by rw [row1_length, flatten1_length])]
  rw [row1_length]
  rw [Finset.sum_congr rfl (fun c hc => by
    rw [row1_getD X k d p c (Finset.mem_range.mp hc),
      flatten1_getD k d c W (Finset.mem_range.mp hc)])]
  exact sum_range_decode2 (fun oh ch => X (p + oh) ch * W oh ch) k d

/-- Entry formula for rank-1 convolve with an output-filter axis. -/
theorem conv1oCore_entry (n d : Nat) (X : Nat → Nat → Int) (k o : Nat)
    (W : Nat → Nat → Nat → Int) (p jf : Nat) (hp : p < n - k + 1) (hjf : jf < o) :
    ((conv1oCore n d X k o W).getD p []).getD jf 0 =
      ∑ oh ∈ Finset.range k, ∑ ch ∈ Finset.range d, X (p + oh) ch * W oh ch jf := by
  rw [conv1oCore, matmulCols]
  rw [getD_map _ _ p (by rw [gather2_length]; exact hp) [] []]
  rw [getD_map_range _ o jf 0 hjf]
  rw [gather2_row X n k d p hp]
  rw [dotL_eq_sum _ _ (by rw [row1_length, colOf_length, flatten1o_length])]
  rw [row1_length]
  rw [Finset.sum_congr rfl (fun c hc => by
    rw [row1_getD X k d p c (Finset.mem_range.mp hc),
      colOf_getD _ jf c (by rw [flatten1o_length]; exact Finset.mem_range.mp hc),
      flatten1o_getD k d o c W (Finset.mem_range.mp hc),
      getD_map_range _ o jf 0 hjf])]
  exact sum_range_decode2 (fun oh ch => X (p + oh) ch * W oh ch jf) k d

theorem gather3_row (X : Nat → Nat → Nat → Int) (nh nw kh kw d p : Nat)
    (hp : p < (nh - kh + 1) * (nw - kw + 1)) :
    (gather3 X (build2rows nh nw kh kw d).1 (build2rows nh nw kh kw d).2.1
        (build2rows nh nw kh kw d).2.2).getD p [] =
      zip3With (fun i j c => X i j c) (win2H kh kw d (p / (nw - kw + 1)))
        (win2W kh kw d (p % (nw - kw + 1))) (win2C kh kw d) := by
  rw [gather3, build2rows]
  rw [zip3With_getD _ _ _ _ p (by rw [anchorRows_length]; exact hp)
    (by rw [anchorRows_length]; exact hp) (by rw [anchorRows_length]; exact hp) [] [] [] []]
  rw [anchorRows_getD _ _ _ p hp, anchorRows_getD _ _ _ p hp, anchorRows_getD _ _ _ p hp]

theorem gather3_length (X : Nat → Nat → Nat → Int) (nh nw kh kw d : Nat) :
    (gather3 X (build2rows nh nw kh kw d).1 (build2rows nh nw kh kw d).2.1
        (build2rows nh nw kh kw d).2.2).length = (nh - kh + 1) * (nw - kw + 1) := by
  rw [gather3, build2rows, zip3With_length, anchorRows_length, anchorRows_length,
    anchorRows_length]
  omega

theorem row2_getD (X : Nat → Nat → Nat → Int) (kh kw d i j c : Nat)
    (hc : c < kh * (kw * d)) :
    (zip3With (fun a b ch => X a b ch) (win2H kh kw d i) (win2W kh kw d j)
        (win2C kh kw d)).getD c 0 =
      X (i + offH kw d c) (j + offW kw d c) (offC d c) := by
  rw [zip3With_getD _ _ _ _ c (by rw [win2H_length]; exact hc)
    (by rw [win2W_length]; exact hc) (by rw [win2C_length]; exact hc) 0 0 0 0]
  rw [win2H_getD kh kw d i c hc, win2W_getD kh kw d j c hc, win2C_getD kh kw d c hc]

theorem row2_length (X : Nat → Nat → Nat → Int) (kh kw d i j : Nat) :
    (zip3With (fun a b ch => X a b ch) (win2H kh kw d i) (win2W kh kw d j)
        (win2C kh kw d)).length = kh * (kw * d) := by
  rw [zip3With_length, win2H_length, win2W_length, win2C_length]
  omega

theorem grid_index_lt {i j Ph Pw : Nat} (hi : i < Ph) (hj : j < Pw) :
    i * Pw + j < Ph * Pw := by
  calc i * Pw + j < i * Pw + Pw := by omega
  _ = (i + 1) * Pw := by ring
  _ ≤ Ph * Pw := Nat.mul_le_mul_right Pw (by omega)

/-- Entry formula for rank-2 convolve without an output-filter axis: each
output position is the triple sum over the window offsets and the channel. -/
theorem conv2Core_entry (nh nw d : Nat) (X : Nat → Nat → Nat → Int) (kh kw : Nat)
    (W : Nat → Nat → Nat → Int) (i j : Nat) (hi : i < nh - kh + 1)
    (hj : j < nw - kw + 1) :
    ((conv2Core nh nw d X kh kw W).getD i []).getD j 0 =
      ∑ oh ∈ Finset.range kh, ∑ ow ∈ Finset.range kw, ∑ ch ∈ Finset.range d,
        X (i + oh) (j + ow) ch * W oh ow ch := by
  have hp : i * (nw - kw + 1) + j < (nh - kh + 1) * (nw - kw + 1) := grid_index_lt hi hj
  rw [conv2Core, reshapeGrid]
  rw [getD_map_range _ _ i [] hi, getD_map_range _ _ j 0 hj]
  rw [matvec]
  rw [getD_map _ _ _ (by rw [gather3_length]; exact hp) 0 []]
  rw [gather3_row X nh nw kh kw d _ hp]
  rw [decode2_div i j _ hj, decode2_mod i j _ hj]
  rw [dotL_eq_sum _ _ (by rw [row2_length, flatten2_length])]
  rw [row2_length]
  rw [Finset.sum_congr rfl (fun c hc => by
    rw [row2_getD X kh kw d i j c (Finset.mem_range.mp hc),
      flatten2_getD kh kw d c W (Finset.mem_range.mp hc)])]
  rw [show (fun c => X (i + offH kw d c) (j + offW kw d c) (offC d c) *
      W (offH kw d c) (offW kw d c) (offC d c)) = fun c =>
      X (i + c / (kw * d)) (j + c / d % kw) (c % d) *
      W (c / (kw * d)) (c / d % kw) (c % d) from rfl]
  exact sum_range_decode3 (fun oh ow ch => X (i + oh) (j + ow) ch * W oh ow ch) kh kw d

/-- Entry formula for rank-2 convolve with an output-filter axis. -/
theorem conv2oCore_entry (nh nw d : Nat) (X : Nat → Nat → Nat → Int) (kh kw o : Nat)
    (W : Nat → Nat → Nat → Nat → Int) (i j jf : Nat) (hi : i < nh - kh + 1)
    (hj : j < nw - kw + 1) (hjf : jf < o) :
    (((conv2oCore nh nw d X kh kw o W).getD i []).getD j []).getD jf 0 =
      ∑ oh ∈ Finset.range kh, ∑ ow ∈ Finset.range kw, ∑ ch ∈ Finset.range d,
        X (i + oh) (j + ow) ch * W oh ow ch jf := by
  have hp : i * (nw - kw + 1) + j < (nh - kh + 1) * (nw - kw + 1) := grid_index_lt hi hj
  rw [conv2oCore, reshapeGrid]
  rw [getD_map_range _ _ i [] hi, getD_map_range _ _ j [] hj]
  rw [matmulCols]
  rw [getD_map _ _ _ (by rw [gather3_length]; exact hp) [] []]
  rw [getD_map_range _ o jf 0 hjf]
  rw [gather3_row X nh nw kh kw d _ hp]
  rw [decode2_div i j _ hj, decode2_mod i j _ hj]
  rw [dotL_eq_sum _ _ (by rw [row2_length, colOf_length, flatten2o_length])]
  rw [row2_length]
  rw [Finset.sum_congr rfl (fun c hc => by
    rw [row2_getD X kh kw d i j c (Finset.mem_range.mp hc),
      colOf_getD _ jf c (by rw [flatten2o_length]; exact Finset.mem_range.mp hc),
      flatten2o_getD kh kw d o c W (Finset.mem_range.mp hc),
      getD_map_range _ o jf 0 hjf])]
  rw [show (fun c => X (i + offH kw d c) (j + offW kw d c) (offC d c) *
      W (offH kw d c) (offW kw d c) (offC d c) jf) = fun c =>
      X (i + c / (kw * d)) (j + c / d % kw) (c % d) *
      W (c / (kw * d)) (c / d % kw) (c % d) jf from rfl]
  exact sum_range_decode3 (fun oh ow ch => X (i + oh) (j + ow) ch * W oh ow ch jf) kh kw d

/-! ### Success path of the convolve wrappers -/

theorem build_window_indices1_ok (n k d : Nat) (hk1 : 1 ≤ k) (hkn : k ≤ n) (hd : 1 ≤ d) :
    build_window_indices1 n k d = .ok (build1rows n k d) := by
  rw [build_window_indices1, if_pos ⟨hk1, hkn, hd⟩]

theorem build_window_indices2_ok (nh nw kh kw d : Nat) (hkh1 : 1 ≤ kh) (hkhn : kh ≤ nh)
    (hkw1 : 1 ≤ kw) (hkwn : kw ≤ nw) (hd : 1 ≤ d) :
    build_window_indices2 nh nw kh kw d = .ok (build2rows nh nw kh kw d) := by
  rw [build_window_indices2, if_pos ⟨hkh1, hkhn, hkw1, hkwn, hd⟩]

theorem convolve1_ok (n d : Nat) (X : Nat → Nat → Int) (k : Nat) (W : Nat → Nat → Int)
    (hk1 : 1 ≤ k) (hkn : k ≤ n) (hd : 1 ≤ d) :
    convolve1 n d X k d W = .ok (conv1Core n d X k W) := by
  rw [convolve1, if_pos rfl, build_window_indices1_ok n k d hk1 hkn hd]

theorem convolve1o_ok (n d : Nat) (X : Nat → Nat → Int) (k o : Nat)
    (W : Nat → Nat → Nat → Int) (hk1 : 1 ≤ k) (hkn : k ≤ n) (hd : 1 ≤ d) (ho : 1 ≤ o) :
    convolve1o n d X k d o W = .ok (conv1oCore n d X k o W) := by
  rw [convolve1o, if_pos ⟨rfl, ho⟩, build_window_indices1_ok n k d hk1 hkn hd]

theorem convolve2_ok (nh nw d : Nat) (X : Nat → Nat → Nat → Int) (kh kw : Nat)
    (W : Nat → Nat → Nat → Int) (hkh1 : 1 ≤ kh) (hkhn : kh ≤ nh) (hkw1 : 1 ≤ kw)
    (hkwn : kw ≤ nw) (hd : 1 ≤ d) :
    convolve2 nh nw d X kh kw d W = .ok (conv2Core nh nw d X kh kw W) := by
  rw [convolve2, if_pos rfl, build_window_indices2_ok nh nw kh kw d hkh1 hkhn hkw1 hkwn hd]

theorem convolve2o_ok (nh nw d : Nat) (X : Nat → Nat → Nat → Int) (kh kw o : Nat)
    (W : Nat → Nat → Nat → Nat → Int) (hkh1 : 1 ≤ kh) (hkhn : kh ≤ nh) (hkw1 : 1 ≤ kw)
    (hkwn : kw ≤ nw) (hd : 1 ≤ d) (ho : 1 ≤ o) :
    convolve2o nh nw d X kh kw d o W = .ok (conv2oCore nh nw d X kh kw o W) := by
  rw [convolve2o, if_pos ⟨rfl, ho⟩,
    build_window_indices2_ok nh nw kh kw d hkh1 hkhn hkw1 hkwn hd]

/-! ### The correlation sum against the reversed filter equals the oracle -/

theorem sum_reversed_eq_cnv (f g : Int → Int) (M p : Nat) :
    ∑ j ∈ Finset.range (2 * M + 1),
        f (((p + j : Nat) : Int) - (M : Int)) * g ((M : Int) - (j : Int)) =
      cnv f g M (p : Int) := by
  rw [cnv_eq_sum]
  rw [← Finset.sum_range_reflect
    (fun j => f (((p : Int)) - ((j : Int) - (M : Int))) * g ((j : Int) - (M : Int)))
    (2 * M + 1)]
  refine Finset.sum_congr rfl (fun j hj => ?_)
  have hj' : j ≤ 2 * M := by
    have := Finset.mem_range.mp hj
    omega
  have hcast : ((2 * M + 1 - 1 - j : Nat) : Int) = 2 * (M : Int) - (j : Int) := by
    have h1 : 2 * M + 1 - 1 - j = 2 * M - j := by omega
    rw [h1, Nat.cast_sub hj']
    push_cast
    ring
  rw [hcast]
  have e1 : ((p : Int)) - (2 * (M : Int) - (j : Int) - (M : Int)) =
      ((p + j : Nat) : Int) - (M : Int) := by
    push_cast
    ring
  have e2 : 2 * (M : Int) - (j : Int) - (M : Int) = (M : Int) - (j : Int) := by ring
  rw [e1, e2]

/-! ### Claim C1 -/

/-- C1 counterexample: feeding the filter g = [-1, 0, 1] itself to convolve
(as the claim states) does NOT reproduce the double-sum reference — convolve
computes cross-correlation, so the output is [2, -2, -1, -2, -1] while the
reference (and the claimed output) is [-2, 2, 1, 2, 1]. -/
theorem C1_counterexample :
    convolve1 7 1 (fun i _ => Xcol.getD i 0) 3 1
        (fun j _ => ([-1, 0, 1] : List Int).getD j 0) = .ok [2, -2, -1, -2, -1] ∧
    (List.range 5).map (fun n => cnv fdict gdict 1 (n : Int)) = [-2, 2, 1, 2, 1] ∧
    ([2, -2, -1, -2, -1] : List Int) ≠ [-2, 2, 1, 2, 1] := by
  refine ⟨by rfl, by decide, by decide⟩

/-- C1 (amended): for every 1D input f (zero-padded by the caller, sampled as
X i = f (i - M)) and odd-length filter g of support 2M+1, convolve applied to
the element-wise REVERSAL of g (column W j = g (M - j), as the source does
with W = [1, 0, -1] for g = [-1, 0, 1]) succeeds and equals, element for
element at each valid output position, the direct double-sum reference
out n = sum over m from -M to M of f (n - m) * g m. -/
theorem C1_convolve_reversed_matches_reference (f g : Int → Int) (M n p : Nat)
    (hn : 2 * M + 1 ≤ n) (hp : p < n - (2 * M + 1) + 1) :
    convolve1 n 1 (fun i _ => f ((i : Int) - (M : Int))) (2 * M + 1) 1
        (fun j _ => g ((M : Int) - (j : Int))) =
      .ok (conv1Core n 1 (fun i _ => f ((i : Int) - (M : Int))) (2 * M + 1)
        (fun j _ => g ((M : Int) - (j : Int)))) ∧
    (conv1Core n 1 (fun i _ => f ((i : Int) - (M : Int))) (2 * M + 1)
        (fun j _ => g ((M : Int) - (j : Int)))).getD p 0 = cnv f g M (p : Int) := by
  constructor
  · exact convolve1_ok n 1 _ (2 * M + 1) _ (by omega) hn (by omega)
  · rw [conv1Core_entry n 1 _ (2 * M + 1) _ p hp]
    rw [Finset.sum_congr rfl (fun oh _ => Finset.sum_range_one
      (f := fun ch => f (((p + oh : Nat) : Int) - (M : Int)) * g ((M : Int) - (oh : Int))))]
    exact sum_reversed_eq_cnv f g M p

/-- C1 witness: the source's concrete instance (f the padded dictionary,
g = [-1, 0, 1], M = 1, n = 7, output position 0). -/
theorem C1_witness :
    (2 * 1 + 1 ≤ 7 ∧ 0 < 7 - (2 * 1 + 1) + 1) ∧
    (convolve1 7 1 (fun i _ => fdict ((i : Int) - (1 : Nat))) (2 * 1 + 1) 1
        (fun j _ => gdict (((1 : Nat) : Int) - (j : Int))) =
      .ok (conv1Core 7 1 (fun i _ => fdict ((i : Int) - (1 : Nat))) (2 * 1 + 1)
        (fun j _ => gdict (((1 : Nat) : Int) - (j : Int)))) ∧
    (conv1Core 7 1 (fun i _ => fdict ((i : Int) - (1 : Nat))) (2 * 1 + 1)
        (fun j _ => gdict (((1 : Nat) : Int) - (j : Int)))).getD 0 0 =
      cnv fdict gdict 1 ((0 : Nat) : Int)) :=
  ⟨⟨by decide, by decide⟩,
    C1_convolve_reversed_matches_reference fdict gdict 1 7 0 (by decide) (by decide)⟩

/-! ### Claim C2 -/

/-- C2: the filter flattening order is spatial-major, channel-minor (for rank
2: height offset c / (kw*d), width offset c / d %% kw, channel c %% d), and for
every column index c the column of the unfolded matrix (the window index rows)
and row c of the flattened filter — with or without the trailing output-filter
axis — refer to exactly that same (spatial offset, channel) pair. -/
theorem C2_flatten_order_matches_columns (k d o kh kw p ph pw c1 c2 : Nat)
    (W1 : Nat → Nat → Int) (W1o : Nat → Nat → Nat → Int)
    (W2 : Nat → Nat → Nat → Int) (W2o : Nat → Nat → Nat → Nat → Int)
    (hc1 : c1 < k * d) (hc2 : c2 < kh * (kw * d)) :
    ((win1H k d p).getD c1 0 = p + c1 / d ∧
      (win1C k d).getD c1 0 = c1 % d ∧
      (flatten1 k d W1).getD c1 0 = W1 (c1 / d) (c1 % d) ∧
      (flatten1o k d o W1o).getD c1 [] =
        (List.range o).map (fun j => W1o (c1 / d) (c1 % d) j)) ∧
    ((win2H kh kw d ph).getD c2 0 = ph + offH kw d c2 ∧
      (win2W kh kw d pw).getD c2 0 = pw + offW kw d c2 ∧
      (win2C kh kw d).getD c2 0 = offC d c2 ∧
      (flatten2 kh kw d W2).getD c2 0 =
        W2 (offH kw d c2) (offW kw d c2) (offC d c2) ∧
      (flatten2o kh kw d o W2o).getD c2 [] =
        (List.range o).map (fun j => W2o (offH kw d c2) (offW kw d c2) (offC d c2) j)) :=
  ⟨⟨win1H_getD k d p c1 hc1, win1C_getD k d c1 hc1, flatten1_getD k d c1 W1 hc1,
      flatten1o_getD k d o c1 W1o hc1⟩,
    ⟨win2H_getD kh kw d ph c2 hc2, win2W_getD kh kw d pw c2 hc2, win2C_getD kh kw d c2 hc2,
      flatten2_getD kh kw d c2 W2 hc2, flatten2o_getD kh kw d o c2 W2o hc2⟩⟩

/-- C2 witness: the source's shapes — 1D two-channel (k = 3, d = 2, column 3)
and 2D two-channel (kh = kw = 3, d = 2, column 7), with the source's filters. -/
theorem C2_witness :
    (3 < 3 * 2 ∧ 7 < 3 * (3 * 2)) ∧
    (((win1H 3 2 1).getD 3 0 = 1 + 3 / 2 ∧
      (win1C 3 2).getD 3 0 = 3 % 2 ∧
      (flatten1 3 2 (at2 W3x2)).getD 3 0 = at2 W3x2 (3 / 2) (3 % 2) ∧
      (flatten1o 3 2 2 (fun a b j => at2 W3x2 a b * (j : Int))).getD 3 [] =
        (List.range 2).map (fun j => (fun a b j0 => at2 W3x2 a b * (j0 : Int)) (3 / 2) (3 % 2) j)) ∧
    ((win2H 3 3 2 1).getD 7 0 = 1 + offH 3 2 7 ∧
      (win2W 3 3 2 2).getD 7 0 = 2 + offW 3 2 7 ∧
      (win2C 3 3 2).getD 7 0 = offC 2 7 ∧
      (flatten2 3 3 2 (at3 W3x3x2)).getD 7 0 =
        at3 W3x3x2 (offH 3 2 7) (offW 3 2 7) (offC 2 7) ∧
      (flatten2o 3 3 2 2 (fun a b c j => at2 W18x2 ((a * 3 + b) * 2 + c) j)).getD 7 [] =
        (List.range 2).map (fun j => (fun a b c j0 => at2 W18x2 ((a * 3 + b) * 2 + c) j0)
          (offH 3 2 7) (offW 3 2 7) (offC 2 7) j))) :=
  ⟨⟨by decide, by decide⟩,
    C2_flatten_order_matches_columns 3 2 2 3 3 1 1 2 3 7 (at2 W3x2)
      (fun a b j => at2 W3x2 a b * (j : Int)) (at3 W3x3x2)
      (fun a b c j => at2 W18x2 ((a * 3 + b) * 2 + c) j) (by decide) (by decide)⟩

/-! ### Claim C3 -/

/-- C3: for valid shapes (k_i <= n_i, d >= 1) build_window_indices succeeds and
returns one index array per gathered axis, each of shape (P, K) with
P the product of (n_i - k_i + 1) and K the product of the filter spatial
dimensions with d; and for every row p and column c the tuple of index values
names exactly the input element at (anchor of window p) + (spatial offset of
flattened position c), at the channel of flattened position c. -/
theorem C3_build_window_indices_spec (n k d nh nw kh kw p c q c2 : Nat)
    (hk1 : 1 ≤ k) (hkn : k ≤ n) (hd : 1 ≤ d) (hp : p < n - k + 1) (hc : c < k * d)
    (hkh1 : 1 ≤ kh) (hkhn : kh ≤ nh) (hkw1 : 1 ≤ kw) (hkwn : kw ≤ nw)
    (hq : q < (nh - kh + 1) * (nw - kw + 1)) (hc2 : c2 < kh * (kw * d)) :
    (build_window_indices1 n k d = .ok (build1rows n k d) ∧
      (build1rows n k d).1.length = n - k + 1 ∧
      (build1rows n k d).2.length = n - k + 1 ∧
      ((build1rows n k d).1.getD p []).length = k * d ∧
      ((build1rows n k d).2.getD p []).length = k * d ∧
      ((build1rows n k d).1.getD p []).getD c 0 = p + c / d ∧
      ((build1rows n k d).2.getD p []).getD c 0 = c % d) ∧
    (build_window_indices2 nh nw kh kw d = .ok (build2rows nh nw kh kw d) ∧
      (build2rows nh nw kh kw d).1.length = (nh - kh + 1) * (nw - kw + 1) ∧
      (build2rows nh nw kh kw d).2.1.length = (nh - kh + 1) * (nw - kw + 1) ∧
      (build2rows nh nw kh kw d).2.2.length = (nh - kh + 1) * (nw - kw + 1) ∧
      ((build2rows nh nw kh kw d).1.getD q []).length = kh * (kw * d) ∧
      ((build2rows nh nw kh kw d).2.1.getD q []).length = kh * (kw * d) ∧
      ((build2rows nh nw kh kw d).2.2.getD q []).length = kh * (kw * d) ∧
      ((build2rows nh nw kh kw d).1.getD q []).getD c2 0 =
        q / (nw - kw + 1) + offH kw d c2 ∧
      ((build2rows nh nw kh kw d).2.1.getD q []).getD c2 0 =
        q % (nw - kw + 1) + offW kw d c2 ∧
      ((build2rows nh nw kh kw d).2.2.getD q []).getD c2 0 = offC d c2) := by
  have hb1f := build1rows_fst_getD n k d p hp
  have hb1s := build1rows_snd_getD n k d p hp
  have hb2f : (build2rows nh nw kh kw d).1.getD q [] =
      win2H kh kw d (q / (nw - kw + 1)) := by
    rw [build2rows]
    exact anchorRows_getD _ _ _ q hq
  have hb2m : (build2rows nh nw kh kw d).2.1.getD q [] =
      win2W kh kw d (q % (nw - kw + 1)) := by
    rw [build2rows]
    exact anchorRows_getD _ _ _ q hq
  have hb2s : (build2rows nh nw kh kw d).2.2.getD q [] = win2C kh kw d := by
    rw [build2rows]
    exact anchorRows_getD _ _ _ q hq
  refine ⟨⟨build_window_indices1_ok n k d hk1 hkn hd, build1rows_fst_length n k d,
      build1rows_snd_length n k d, ?_, ?_, ?_, ?_⟩,
    build_window_indices2_ok nh nw kh kw d hkh1 hkhn hkw1 hkwn hd, ?_, ?_, ?_,
    ?_, ?_, ?_, ?_, ?_, ?_⟩
  · rw [hb1f, win1H_length]
  · rw [hb1s, win1C_length]
  · rw [hb1f, win1H_getD k d p c hc]
  · rw [hb1s, win1C_getD k d c hc]
  · rw [build2rows]; exact anchorRows_length _ _ _
  · rw [build2rows]; exact anchorRows_length _ _ _
  · rw [build2rows]; exact anchorRows_length _ _ _
  · rw [hb2f, win2H_length]
  · rw [hb2m, win2W_length]
  · rw [hb2s, win2C_length]
  · rw [hb2f, win2H_getD kh kw d _ c2 hc2]
  · rw [hb2m, win2W_getD kh kw d _ c2 hc2]
  · rw [hb2s, win2C_getD kh kw d c2 hc2]

/-- C3 witness: the source's 1D two-channel shapes (n = 7, k = 3, d = 2,
row 2, column 5) and 2D two-channel shapes (5 x 5 input, 3 x 3 filter, d = 2,
row 4, column 13). -/
theorem C3_witness :
    (1 ≤ 3 ∧ 3 ≤ 7 ∧ 1 ≤ 2 ∧ 2 < 7 - 3 + 1 ∧ 5 < 3 * 2 ∧
      1 ≤ 3 ∧ 3 ≤ 5 ∧ 4 < (5 - 3 + 1) * (5 - 3 + 1) ∧ 13 < 3 * (3 * 2)) ∧
    ((build_window_indices1 7 3 2 = .ok (build1rows 7 3 2) ∧
      (build1rows 7 3 2).1.length = 7 - 3 + 1 ∧
      (build1rows 7 3 2).2.length = 7 - 3 + 1 ∧
      ((build1rows 7 3 2).1.getD 2 []).length = 3 * 2 ∧
      ((build1rows 7 3 2).2.getD 2 []).length = 3 * 2 ∧
      ((build1rows 7 3 2).1.getD 2 []).getD 5 0 = 2 + 5 / 2 ∧
      ((build1rows 7 3 2).2.getD 2 []).getD 5 0 = 5 % 2) ∧
    (build_window_indices2 5 5 3 3 2 = .ok (build2rows 5 5 3 3 2) ∧
      (build2rows 5 5 3 3 2).1.length = (5 - 3 + 1) * (5 - 3 + 1) ∧
      (build2rows 5 5 3 3 2).2.1.length = (5 - 3 + 1) * (5 - 3 + 1) ∧
      (build2rows 5 5 3 3 2).2.2.length = (5 - 3 + 1) * (5 - 3 + 1) ∧
      ((build2rows 5 5 3 3 2).1.getD 4 []).length = 3 * (3 * 2) ∧
      ((build2rows 5 5 3 3 2).2.1.getD 4 []).length = 3 * (3 * 2) ∧
      ((build2rows 5 5 3 3 2).2.2.getD 4 []).length = 3 * (3 * 2) ∧
      ((build2rows 5 5 3 3 2).1.getD 4 []).getD 13 0 =
        4 / (5 - 3 + 1) + offH 3 2 13 ∧
      ((build2rows 5 5 3 3 2).2.1.getD 4 []).getD 13 0 =
        4 % (5 - 3 + 1) + offW 3 2 13 ∧
      ((build2rows 5 5 3 3 2).2.2.getD 4 []).getD 13 0 = offC 2 13)) :=
  ⟨by decide,
    C3_build_window_indices_spec 7 3 2 5 5 3 3 2 5 4 13 (by decide) (by decide) (by decide)
      (by decide) (by decide) (by decide) (by decide) (by decide) (by decide)
      (by decide) (by decide)⟩

/-! ### Claim C4 -/

theorem conv1Core_length (n d : Nat) (X : Nat → Nat → Int) (k : Nat) (W : Nat → Nat → Int) :
    (conv1Core n d X k W).length = n - k + 1 := by
  rw [conv1Core, matvec, List.length_map, gather2_length]

theorem conv1oCore_length (n d : Nat) (X : Nat → Nat → Int) (k o : Nat)
    (W : Nat → Nat → Nat → Int) : (conv1oCore n d X k o W).length = n - k + 1 := by
  rw [conv1oCore, matmulCols, List.length_map, gather2_length]

theorem conv1oCore_row_length (n d : Nat) (X : Nat → Nat → Int) (k o p : Nat)
    (W : Nat → Nat → Nat → Int) (hp : p < n - k + 1) :
    ((conv1oCore n d X k o W).getD p []).length = o := by
  rw [conv1oCore, matmulCols, getD_map _ _ p (by rw [gather2_length]; exact hp) [] []]
  simp

theorem conv2Core_length (nh nw d : Nat) (X : Nat → Nat → Nat → Int) (kh kw : Nat)
    (W : Nat → Nat → Nat → Int) : (conv2Core nh nw d X kh kw W).length = nh - kh + 1 := by
  rw [conv2Core, reshapeGrid, List.length_map, List.length_range]

theorem conv2Core_row_length (nh nw d : Nat) (X : Nat → Nat → Nat → Int) (kh kw i : Nat)
    (W : Nat → Nat → Nat → Int) (hi : i < nh - kh + 1) :
    ((conv2Core nh nw d X kh kw W).getD i []).length = nw - kw + 1 := by
  rw [conv2Core, reshapeGrid, getD_map_range _ _ i [] hi, List.length_map, List.length_range]

theorem conv2oCore_length (nh nw d : Nat) (X : Nat → Nat → Nat → Int) (kh kw o : Nat)
    (W : Nat → Nat → Nat → Nat → Int) :
    (conv2oCore nh nw d X kh kw o W).length = nh - kh + 1 := by
  rw [conv2oCore, reshapeGrid, List.length_map, List.length_range]

theorem conv2oCore_row_length (nh nw d : Nat) (X : Nat → Nat → Nat → Int) (kh kw o i : Nat)
    (W : Nat → Nat → Nat → Nat → Int) (hi : i < nh - kh + 1) :
    ((conv2oCore nh nw d X kh kw o W).getD i []).length = nw - kw + 1 := by
  rw [conv2oCore, reshapeGrid, getD_map_range _ _ i [] hi, List.length_map, List.length_range]

theorem conv2oCore_cell_length (nh nw d : Nat) (X : Nat → Nat → Nat → Int) (kh kw o i j : Nat)
    (W : Nat → Nat → Nat → Nat → Int) (hi : i < nh - kh + 1) (hj : j < nw - kw + 1) :
    (((conv2oCore nh nw d X kh kw o W).getD i []).getD j []).length = o := by
  have hp : i * (nw - kw + 1) + j < (nh - kh + 1) * (nw - kw + 1) := grid_index_lt hi hj
  rw [conv2oCore, reshapeGrid, getD_map_range _ _ i [] hi, getD_map_range _ _ j [] hj]
  rw [matmulCols, getD_map _ _ _ (by rw [gather3_length]; exact hp) [] []]
  simp

/-- C4: for valid shapes the output of convolve has spatial shape
(n_h - k_h + 1 [, n_w - k_w + 1]); the output carries a trailing axis of size
o exactly for the variants whose filter carries a trailing output-filter axis
of size o (the scalar variants return scalar entries). -/
theorem C4_shape_law (n d k o nh nw kh kw p i j : Nat) (X1 : Nat → Nat → Int)
    (W1 : Nat → Nat → Int) (W1o : Nat → Nat → Nat → Int) (X2 : Nat → Nat → Nat → Int)
    (W2 : Nat → Nat → Nat → Int) (W2o : Nat → Nat → Nat → Nat → Int)
    (hk1 : 1 ≤ k) (hkn : k ≤ n) (hd : 1 ≤ d) (ho : 1 ≤ o)
    (hkh1 : 1 ≤ kh) (hkhn : kh ≤ nh) (hkw1 : 1 ≤ kw) (hkwn : kw ≤ nw)
    (hp : p < n - k + 1) (hi : i < nh - kh + 1) (hj : j < nw - kw + 1) :
    (convolve1 n d X1 k d W1 = .ok (conv1Core n d X1 k W1) ∧
      (conv1Core n d X1 k W1).length = n - k + 1) ∧
    (convolve1o n d X1 k d o W1o = .ok (conv1oCore n d X1 k o W1o) ∧
      (conv1oCore n d X1 k o W1o).length = n - k + 1 ∧
      ((conv1oCore n d X1 k o W1o).getD p []).length = o) ∧
    (convolve2 nh nw d X2 kh kw d W2 = .ok (conv2Core nh nw d X2 kh kw W2) ∧
      (conv2Core nh nw d X2 kh kw W2).length = nh - kh + 1 ∧
      ((conv2Core nh nw d X2 kh kw W2).getD i []).length = nw - kw + 1) ∧
    (convolve2o nh nw d X2 kh kw d o W2o = .ok (conv2oCore nh nw d X2 kh kw o W2o) ∧
      (conv2oCore nh nw d X2 kh kw o W2o).length = nh - kh + 1 ∧
      ((conv2oCore nh nw d X2 kh kw o W2o).getD i []).length = nw - kw + 1 ∧
      (((conv2oCore nh nw d X2 kh kw o W2o).getD i []).getD j []).length = o) :=
  ⟨⟨convolve1_ok n d X1 k W1 hk1 hkn hd, conv1Core_length n d X1 k W1⟩,
    ⟨convolve1o_ok n d X1 k o W1o hk1 hkn hd ho, conv1oCore_length n d X1 k o W1o,
      conv1oCore_row_length n d X1 k o p W1o hp⟩,
    ⟨convolve2_ok nh nw d X2 kh kw W2 hkh1 hkhn hkw1 hkwn hd,
      conv2Core_length nh nw d X2 kh kw W2,
      conv2Core_row_length nh nw d X2 kh kw i W2 hi⟩,
    ⟨convolve2o_ok nh nw d X2 kh kw o W2o hkh1 hkhn hkw1 hkwn hd ho,
      conv2oCore_length nh nw d X2 kh kw o W2o,
      conv2oCore_row_length nh nw d X2 kh kw o i W2o hi,
      conv2oCore_cell_length nh nw d X2 kh kw o i j W2o hi hj⟩⟩

/-- C4 witness: the source's shapes (n = 7, k = 3, d = 2, o = 2; 5 x 5 input
with 3 x 3 filter), at output row 1, position (1, 2). -/
theorem C4_witness :
    (1 ≤ 3 ∧ 3 ≤ 7 ∧ 1 ≤ 2 ∧ 1 ≤ 2 ∧ 1 ≤ 3 ∧ 3 ≤ 5 ∧
      1 < 7 - 3 + 1 ∧ 1 < 5 - 3 + 1 ∧ 2 < 5 - 3 + 1) ∧
    ((convolve1 7 2 (at2 X7x2) 3 2 (at2 W3x2) = .ok (conv1Core 7 2 (at2 X7x2) 3 (at2 W3x2)) ∧
      (conv1Core 7 2 (at2 X7x2) 3 (at2 W3x2)).length = 7 - 3 + 1) ∧
    (convolve1o 7 2 (at2 X7x2) 3 2 2 (fun a b j => at2 W3x2 a b * (j : Int)) =
        .ok (conv1oCore 7 2 (at2 X7x2) 3 2 (fun a b j => at2 W3x2 a b * (j : Int))) ∧
      (conv1oCore 7 2 (at2 X7x2) 3 2 (fun a b j => at2 W3x2 a b * (j : Int))).length =
        7 - 3 + 1 ∧
      ((conv1oCore 7 2 (at2 X7x2) 3 2
        (fun a b j => at2 W3x2 a b * (j : Int))).getD 1 []).length = 2) ∧
    (convolve2 5 5 2 (at3 X5x5x2) 3 3 2 (at3 W3x3x2) =
        .ok (conv2Core 5 5 2 (at3 X5x5x2) 3 3 (at3 W3x3x2)) ∧
      (conv2Core 5 5 2 (at3 X5x5x2) 3 3 (at3 W3x3x2)).length = 5 - 3 + 1 ∧
      ((conv2Core 5 5 2 (at3 X5x5x2) 3 3 (at3 W3x3x2)).getD 1 []).length = 5 - 3 + 1) ∧
    (convolve2o 5 5 2 (at3 X5x5x2) 3 3 2 2
          (fun a b c j => at2 W18x2 ((a * 3 + b) * 2 + c) j) =
        .ok (conv2oCore 5 5 2 (at3 X5x5x2) 3 3 2
          (fun a b c j => at2 W18x2 ((a * 3 + b) * 2 + c) j)) ∧
      (conv2oCore 5 5 2 (at3 X5x5x2) 3 3 2
        (fun a b c j => at2 W18x2 ((a * 3 + b) * 2 + c) j)).length = 5 - 3 + 1 ∧
      ((conv2oCore 5 5 2 (at3 X5x5x2) 3 3 2
        (fun a b c j => at2 W18x2 ((a * 3 + b) * 2 + c) j)).getD 1 []).length = 5 - 3 + 1 ∧
      (((conv2oCore 5 5 2 (at3 X5x5x2) 3 3 2
        (fun a b c j => at2 W18x2 ((a * 3 + b) * 2 + c) j)).getD 1 []).getD 2 []).length = 2)) :=
  ⟨by decide,
    C4_shape_law 7 2 3 2 5 5 3 3 1 1 2 (at2 X7x2) (at2 W3x2)
      (fun a b j => at2 W3x2 a b * (j : Int)) (at3 X5x5x2) (at3 W3x3x2)
      (fun a b c j => at2 W18x2 ((a * 3 + b) * 2 + c) j) (by decide) (by decide)
      (by decide) (by decide) (by decide) (by decide) (by decide) (by decide)
      (by decide) (by decide) (by decide)⟩

/-! ### Claim C5 -/

/-- C5: convolve with a batched filter stacking o independent filters
column-wise equals, slice by slice, convolve with each single filter computed
independently; and on the source's worked 2D one-channel example (the 5 x 5
integer input with the 3 x 3 integer filter) the output is exactly
[[-9, 4, 14], [3, -9, 9], [-8, -4, 4]]. -/
theorem C5_multi_filter_batching (nh nw d kh kw o i jj j : Nat)
    (X : Nat → Nat → Nat → Int) (W : Nat → Nat → Nat → Nat → Int)
    (hkh1 : 1 ≤ kh) (hkhn : kh ≤ nh) (hkw1 : 1 ≤ kw) (hkwn : kw ≤ nw) (hd : 1 ≤ d)
    (ho : 1 ≤ o) (hi : i < nh - kh + 1) (hjj : jj < nw - kw + 1) (hj : j < o) :
    convolve2o nh nw d X kh kw d o W = .ok (conv2oCore nh nw d X kh kw o W) ∧
    convolve2 nh nw d X kh kw d (fun a b c => W a b c j) =
      .ok (conv2Core nh nw d X kh kw (fun a b c => W a b c j)) ∧
    (((conv2oCore nh nw d X kh kw o W).getD i []).getD jj []).getD j 0 =
      ((conv2Core nh nw d X kh kw (fun a b c => W a b c j)).getD i []).getD jj 0 ∧
    conv2Core 5 5 1 (fun a b _ => at2 X5x5 a b) 3 3 (fun a b _ => at2 W3x3 a b) =
      [[-9, 4, 14], [3, -9, 9], [-8, -4, 4]] := by
  refine ⟨convolve2o_ok nh nw d X kh kw o W hkh1 hkhn hkw1 hkwn hd ho,
    convolve2_ok nh nw d X kh kw _ hkh1 hkhn hkw1 hkwn hd, ?_, by decide⟩
  rw [conv2oCore_entry nh nw d X kh kw o W i jj j hi hjj hj,
    conv2Core_entry nh nw d X kh kw (fun a b c => W a b c j) i jj hi hjj]

/-- C5 witness: the source's final example (5 x 5 x 2 input, two stacked
3 x 3 x 2 filters), slice 1, output position (2, 0). -/
theorem C5_witness :
    (1 ≤ 3 ∧ 3 ≤ 5 ∧ 1 ≤ 2 ∧ 1 ≤ 2 ∧ 2 < 5 - 3 + 1 ∧ 0 < 5 - 3 + 1 ∧ 1 < 2) ∧
    (convolve2o 5 5 2 (at3 X5x5x2) 3 3 2 2
        (fun a b c j => at2 W18x2 ((a * 3 + b) * 2 + c) j) =
      .ok (conv2oCore 5 5 2 (at3 X5x5x2) 3 3 2
        (fun a b c j => at2 W18x2 ((a * 3 + b) * 2 + c) j)) ∧
    convolve2 5 5 2 (at3 X5x5x2) 3 3 2
        (fun a b c => (fun a0 b0 c0 j => at2 W18x2 ((a0 * 3 + b0) * 2 + c0) j) a b c 1) =
      .ok (conv2Core 5 5 2 (at3 X5x5x2) 3 3
        (fun a b c => (fun a0 b0 c0 j => at2 W18x2 ((a0 * 3 + b0) * 2 + c0) j) a b c 1)) ∧
    (((conv2oCore 5 5 2 (at3 X5x5x2) 3 3 2
        (fun a b c j => at2 W18x2 ((a * 3 + b) * 2 + c) j)).getD 2 []).getD 0 []).getD 1 0 =
      ((conv2Core 5 5 2 (at3 X5x5x2) 3 3
        (fun a b c => (fun a0 b0 c0 j => at2 W18x2 ((a0 * 3 + b0) * 2 + c0) j) a b c 1)).getD
        2 []).getD 0 0 ∧
    conv2Core 5 5 1 (fun a b _ => at2 X5x5 a b) 3 3 (fun a b _ => at2 W3x3 a b) =
      [[-9, 4, 14], [3, -9, 9], [-8, -4, 4]]) :=
  ⟨by decide,
    C5_multi_filter_batching 5 5 2 3 3 2 2 0 1 (at3 X5x5x2)
      (fun a b c j => at2 W18x2 ((a * 3 + b) * 2 + c) j) (by decide) (by decide)
      (by decide) (by decide) (by decide) (by decide) (by decide) (by decide) (by decide)⟩

/-! ### Claim C6 -/

/-- C6: convolve with a filter of channel size d aggregates (sums) over all d
channels, in both spatial ranks; with a filter whose weights vanish on every
channel except c0, the result equals the single-channel convolution of
channel c0 alone. -/
theorem C6_channel_aggregation (n k d c0 p nh nw kh kw i j : Nat)
    (X1 : Nat → Nat → Int) (W1 : Nat → Nat → Int)
    (X : Nat → Nat → Nat → Int) (W : Nat → Nat → Nat → Int)
    (hk1 : 1 ≤ k) (hkn : k ≤ n)
    (hkh1 : 1 ≤ kh) (hkhn : kh ≤ nh) (hkw1 : 1 ≤ kw) (hkwn : kw ≤ nw) (hd : 1 ≤ d)
    (hc0 : c0 < d)
    (hzero1 : ∀ oh, oh < k → ∀ ch, ch < d → ch ≠ c0 → W1 oh ch = 0)
    (hzero : ∀ oh, oh < kh → ∀ ow, ow < kw → ∀ ch, ch < d → ch ≠ c0 → W oh ow ch = 0)
    (hp : p < n - k + 1) (hi : i < nh - kh + 1) (hj : j < nw - kw + 1) :
    (convolve1 n d X1 k d W1 = .ok (conv1Core n d X1 k W1) ∧
      (conv1Core n d X1 k W1).getD p 0 =
        (conv1Core n 1 (fun a _ => X1 a c0) k (fun oh _ => W1 oh c0)).getD p 0) ∧
    (convolve2 nh nw d X kh kw d W = .ok (conv2Core nh nw d X kh kw W) ∧
      ((conv2Core nh nw d X kh kw W).getD i []).getD j 0 =
        ((conv2Core nh nw 1 (fun a b _ => X a b c0) kh kw
          (fun oh ow _ => W oh ow c0)).getD i []).getD j 0) := by
  refine ⟨⟨convolve1_ok n d X1 k W1 hk1 hkn hd, ?_⟩,
    ⟨convolve2_ok nh nw d X kh kw W hkh1 hkhn hkw1 hkwn hd, ?_⟩⟩
  · rw [conv1Core_entry n d X1 k W1 p hp,
      conv1Core_entry n 1 (fun a _ => X1 a c0) k (fun oh _ => W1 oh c0) p hp]
    refine Finset.sum_congr rfl (fun oh hoh => ?_)
    rw [Finset.sum_range_one]
    exact Finset.sum_eq_single_of_mem c0 (Finset.mem_range.mpr hc0)
      (fun b hb hbne => by
        rw [hzero1 oh (Finset.mem_range.mp hoh) b (Finset.mem_range.mp hb) hbne]
        ring)
  · rw [conv2Core_entry nh nw d X kh kw W i j hi hj,
      conv2Core_entry nh nw 1 (fun a b _ => X a b c0) kh kw (fun oh ow _ => W oh ow c0)
        i j hi hj]
    refine Finset.sum_congr rfl (fun oh hoh => Finset.sum_congr rfl (fun ow how => ?_))
    rw [Finset.sum_range_one]
    exact Finset.sum_eq_single_of_mem c0 (Finset.mem_range.mpr hc0)
      (fun b hb hbne => by
        rw [hzero oh (Finset.mem_range.mp hoh) ow (Finset.mem_range.mp how) b
          (Finset.mem_range.mp hb) hbne]
        ring)

/-- C6 witness: the source's 1D two-channel input (7 x 2, the cited example)
with the 3 x 2 filter whose channel-1 weights are zeroed, at output position
1, and the source's 5 x 5 x 2 input with the 3 x 3 x 2 filter whose channel-1
weights are zeroed, at output position (0, 1), each against channel 0 alone. -/
theorem C6_witness :
    (1 ≤ 3 ∧ 3 ≤ 7 ∧ 1 ≤ 3 ∧ 3 ≤ 5 ∧ 1 ≤ 2 ∧ 0 < 2 ∧
      (∀ oh, oh < 3 → ∀ ch, ch < 2 → ch ≠ 0 →
        (fun a b => if b = 0 then at2 W3x2 a 0 else 0) oh ch = 0) ∧
      (∀ oh, oh < 3 → ∀ ow, ow < 3 → ∀ ch, ch < 2 → ch ≠ 0 →
        (fun a b c => if c = 0 then at3 W3x3x2 a b 0 else 0) oh ow ch = 0) ∧
      1 < 7 - 3 + 1 ∧ 0 < 5 - 3 + 1 ∧ 1 < 5 - 3 + 1) ∧
    ((convolve1 7 2 (at2 X7x2) 3 2 (fun a b => if b = 0 then at2 W3x2 a 0 else 0) =
      .ok (conv1Core 7 2 (at2 X7x2) 3 (fun a b => if b = 0 then at2 W3x2 a 0 else 0)) ∧
      (conv1Core 7 2 (at2 X7x2) 3
          (fun a b => if b = 0 then at2 W3x2 a 0 else 0)).getD 1 0 =
        (conv1Core 7 1 (fun a _ => at2 X7x2 a 0) 3
          (fun oh _ => (fun a b => if b = 0 then at2 W3x2 a 0 else 0) oh 0)).getD 1 0) ∧
    (convolve2 5 5 2 (at3 X5x5x2) 3 3 2 (fun a b c => if c = 0 then at3 W3x3x2 a b 0 else 0) =
      .ok (conv2Core 5 5 2 (at3 X5x5x2) 3 3
        (fun a b c => if c = 0 then at3 W3x3x2 a b 0 else 0)) ∧
    ((conv2Core 5 5 2 (at3 X5x5x2) 3 3
        (fun a b c => if c = 0 then at3 W3x3x2 a b 0 else 0)).getD 0 []).getD 1 0 =
      ((conv2Core 5 5 1 (fun a b _ => at3 X5x5x2 a b 0) 3 3
        (fun oh ow _ => (fun a b c => if c = 0 then at3 W3x3x2 a b 0 else 0) oh ow 0)).getD
        0 []).getD 1 0)) :=
  ⟨⟨by decide, by decide, by decide, by decide, by decide, by decide, by decide,
      by decide, by decide, by decide, by decide⟩,
    C6_channel_aggregation 7 3 2 0 1 5 5 3 3 0 1 (at2 X7x2)
      (fun a b => if b = 0 then at2 W3x2 a 0 else 0) (at3 X5x5x2)
      (fun a b c => if c = 0 then at3 W3x3x2 a b 0 else 0) (by decide) (by decide)
      (by decide) (by decide) (by decide) (by decide) (by decide) (by decide)
      (by decide) (by decide) (by decide) (by decide) (by decide)⟩

/-! ### Claim C7 -/

theorem build_window_indices1_err (n k d : Nat) (hbad : n < k ∨ d < 1) :
    build_window_indices1 n k d = .error .InvalidShape := by
  rw [build_window_indices1, if_neg]
  intro h
  rcases h with ⟨h1, h2, h3⟩
  omega

theorem build_window_indices2_err (nh nw kh kw d : Nat)
    (hbad : nh < kh ∨ nw < kw ∨ d < 1) :
    build_window_indices2 nh nw kh kw d = .error .InvalidShape := by
  rw [build_window_indices2, if_neg]
  intro h
  rcases h with ⟨h1, h2, h3, h4, h5⟩
  omega

/-- C7: build_window_indices and every convolve variant fail with InvalidShape
whenever a filter spatial dimension exceeds the corresponding input dimension,
the channel count is below 1, or the channel sizes of input and filter
mismatch; in each case the functions return only the error and no partial
result (they are pure, so nothing else is produced and no state changes). -/
theorem C7_invalid_shape_errors (n k d nh nw kh kw dX dW o : Nat)
    (X1 : Nat → Nat → Int) (W1 : Nat → Nat → Int) (W1o : Nat → Nat → Nat → Int)
    (X2 : Nat → Nat → Nat → Int) (W2 : Nat → Nat → Nat → Int)
    (W2o : Nat → Nat → Nat → Nat → Int)
    (h1 : n < k ∨ d < 1) (h2 : nh < kh ∨ nw < kw ∨ d < 1) (h3 : dX ≠ dW) :
    build_window_indices1 n k d = .error .InvalidShape ∧
    build_window_indices2 nh nw kh kw d = .error .InvalidShape ∧
    convolve1 n d X1 k d W1 = .error .InvalidShape ∧
    convolve1o n d X1 k d o W1o = .error .InvalidShape ∧
    convolve2 nh nw d X2 kh kw d W2 = .error .InvalidShape ∧
    convolve2o nh nw d X2 kh kw d o W2o = .error .InvalidShape ∧
    convolve1 n dX X1 k dW W1 = .error .InvalidShape ∧
    convolve2 nh nw dX X2 kh kw dW W2 = .error .InvalidShape := by
  refine ⟨build_window_indices1_err n k d h1, build_window_indices2_err nh nw kh kw d h2,
    ?_, ?_, ?_, ?_, ?_, ?_⟩
  · rw [convolve1, if_pos rfl, build_window_indices1_err n k d h1]
  · rw [convolve1o]
    by_cases ho : 1 ≤ o
    · rw [if_pos ⟨rfl, ho⟩, build_window_indices1_err n k d h1]
    · rw [if_neg (by intro h; exact ho h.2)]
  · rw [convolve2, if_pos rfl, build_window_indices2_err nh nw kh kw d h2]
  · rw [convolve2o]
    by_cases ho : 1 ≤ o
    · rw [if_pos ⟨rfl, ho⟩, build_window_indices2_err nh nw kh kw d h2]
    · rw [if_neg (by intro h; exact ho h.2)]
  · rw [convolve1, if_neg h3]
  · rw [convolve2, if_neg h3]

/-- C7 witness: filter larger than the input (k = 4 > n = 2), zero channel
count, and mismatched channel sizes, all erroring. -/
theorem C7_witness :
    ((2 < 4 ∨ 0 < 1) ∧ (2 < 4 ∨ 2 < 4 ∨ 0 < 1) ∧ (0 : Nat) ≠ 1) ∧
    (build_window_indices1 2 4 0 = .error .InvalidShape ∧
    build_window_indices2 2 2 4 4 0 = .error .InvalidShape ∧
    convolve1 2 0 (fun _ _ => 0) 4 0 (fun _ _ => 0) = .error .InvalidShape ∧
    convolve1o 2 0 (fun _ _ => 0) 4 0 3 (fun _ _ _ => 0) = .error .InvalidShape ∧
    convolve2 2 2 0 (fun _ _ _ => 0) 4 4 0 (fun _ _ _ => 0) = .error .InvalidShape ∧
    convolve2o 2 2 0 (fun _ _ _ => 0) 4 4 0 3 (fun _ _ _ _ => 0) = .error .InvalidShape ∧
    convolve1 2 0 (fun _ _ => 0) 4 1 (fun _ _ => 0) = .error .InvalidShape ∧
    convolve2 2 2 0 (fun _ _ _ => 0) 4 4 1 (fun _ _ _ => 0) = .error .InvalidShape) :=
  ⟨⟨by decide, by decide, by decide⟩,
    C7_invalid_shape_errors 2 4 0 2 2 4 4 0 1 3 (fun _ _ => 0) (fun _ _ => 0)
      (fun _ _ _ => 0) (fun _ _ _ => 0) (fun _ _ _ => 0) (fun _ _ _ _ => 0)
      (by decide) (by decide) (by decide)⟩

/-! ### Claim C8 -/

/-- C8: gather consistency in both spatial ranks — whenever two (row, column)
positions of the unfolded matrix carry identical index tuples (as happens
where two sliding windows overlap and name the same absolute input
coordinate), the gathered values are identical: the duplication of
overlapping input elements is consistent. -/
theorem C8_gather_consistency (n k d p1 p2 c1 c2 nh nw kh kw q1 q2 e1 e2 : Nat)
    (X1 : Nat → Nat → Int) (X : Nat → Nat → Nat → Int)
    (hp1 : p1 < n - k + 1) (hp2 : p2 < n - k + 1)
    (hc1 : c1 < k * d) (hc2 : c2 < k * d)
    (hH1 : ((build1rows n k d).1.getD p1 []).getD c1 0 =
      ((build1rows n k d).1.getD p2 []).getD c2 0)
    (hC1 : ((build1rows n k d).2.getD p1 []).getD c1 0 =
      ((build1rows n k d).2.getD p2 []).getD c2 0)
    (hq1 : q1 < (nh - kh + 1) * (nw - kw + 1)) (hq2 : q2 < (nh - kh + 1) * (nw - kw + 1))
    (he1 : e1 < kh * (kw * d)) (he2 : e2 < kh * (kw * d))
    (hH : ((build2rows nh nw kh kw d).1.getD q1 []).getD e1 0 =
      ((build2rows nh nw kh kw d).1.getD q2 []).getD e2 0)
    (hW : ((build2rows nh nw kh kw d).2.1.getD q1 []).getD e1 0 =
      ((build2rows nh nw kh kw d).2.1.getD q2 []).getD e2 0)
    (hC : ((build2rows nh nw kh kw d).2.2.getD q1 []).getD e1 0 =
      ((build2rows nh nw kh kw d).2.2.getD q2 []).getD e2 0) :
    ((gather2 X1 (build1rows n k d).1 (build1rows n k d).2).getD p1 []).getD c1 0 =
      ((gather2 X1 (build1rows n k d).1 (build1rows n k d).2).getD p2 []).getD c2 0 ∧
    ((gather3 X (build2rows nh nw kh kw d).1 (build2rows nh nw kh kw d).2.1
        (build2rows nh nw kh kw d).2.2).getD q1 []).getD e1 0 =
      ((gather3 X (build2rows nh nw kh kw d).1 (build2rows nh nw kh kw d).2.1
        (build2rows nh nw kh kw d).2.2).getD q2 []).getD e2 0 := by
  constructor
  · rw [build1rows_fst_getD n k d p1 hp1, build1rows_fst_getD n k d p2 hp2,
      win1H_getD k d p1 c1 hc1, win1H_getD k d p2 c2 hc2] at hH1
    rw [build1rows_snd_getD n k d p1 hp1, build1rows_snd_getD n k d p2 hp2,
      win1C_getD k d c1 hc1, win1C_getD k d c2 hc2] at hC1
    rw [gather2_row X1 n k d p1 hp1, gather2_row X1 n k d p2 hp2,
      row1_getD X1 k d p1 c1 hc1, row1_getD X1 k d p2 c2 hc2, hH1, hC1]
  · have hrow1 : (build2rows nh nw kh kw d).1.getD q1 [] =
        win2H kh kw d (q1 / (nw - kw + 1)) := by
      rw [build2rows]; exact anchorRows_getD _ _ _ q1 hq1
    have hrow2 : (build2rows nh nw kh kw d).1.getD q2 [] =
        win2H kh kw d (q2 / (nw - kw + 1)) := by
      rw [build2rows]; exact anchorRows_getD _ _ _ q2 hq2
    have hwow1 : (build2rows nh nw kh kw d).2.1.getD q1 [] =
        win2W kh kw d (q1 % (nw - kw + 1)) := by
      rw [build2rows]; exact anchorRows_getD _ _ _ q1 hq1
    have hwow2 : (build2rows nh nw kh kw d).2.1.getD q2 [] =
        win2W kh kw d (q2 % (nw - kw + 1)) := by
      rw [build2rows]; exact anchorRows_getD _ _ _ q2 hq2
    have hcow1 : (build2rows nh nw kh kw d).2.2.getD q1 [] = win2C kh kw d := by
      rw [build2rows]; exact anchorRows_getD _ _ _ q1 hq1
    have hcow2 : (build2rows nh nw kh kw d).2.2.getD q2 [] = win2C kh kw d := by
      rw [build2rows]; exact anchorRows_getD _ _ _ q2 hq2
    rw [hrow1, hrow2, win2H_getD kh kw d _ e1 he1, win2H_getD kh kw d _ e2 he2] at hH
    rw [hwow1, hwow2, win2W_getD kh kw d _ e1 he1, win2W_getD kh kw d _ e2 he2] at hW
    rw [hcow1, hcow2, win2C_getD kh kw d e1 he1, win2C_getD kh kw d e2 he2] at hC
    rw [gather3_row X nh nw kh kw d q1 hq1, gather3_row X nh nw kh kw d q2 hq2,
      row2_getD X kh kw d _ _ e1 he1, row2_getD X kh kw d _ _ e2 he2, hH, hW, hC]

/-- C8 witness: the source's 1D one-feature Xhat (n = 7, k = 3 — windows 0
and 1 overlap; column 1 of window 0 and column 0 of window 1 both name input
position 1), and the 5 x 5 input with the 3 x 3 filter — windows (0,0) and
(0,1) overlap; column 1 of window 0 and column 0 of window 1 both name input
coordinate (0, 1); the gathered values agree in both cases. -/
theorem C8_witness :
    (0 < 7 - 3 + 1 ∧ 1 < 7 - 3 + 1 ∧ 1 < 3 * 1 ∧ 0 < 3 * 1 ∧
      ((build1rows 7 3 1).1.getD 0 []).getD 1 0 =
        ((build1rows 7 3 1).1.getD 1 []).getD 0 0 ∧
      ((build1rows 7 3 1).2.getD 0 []).getD 1 0 =
        ((build1rows 7 3 1).2.getD 1 []).getD 0 0 ∧
      0 < (5 - 3 + 1) * (5 - 3 + 1) ∧ 1 < (5 - 3 + 1) * (5 - 3 + 1) ∧
      1 < 3 * (3 * 1) ∧ 0 < 3 * (3 * 1) ∧
      ((build2rows 5 5 3 3 1).1.getD 0 []).getD 1 0 =
        ((build2rows 5 5 3 3 1).1.getD 1 []).getD 0 0 ∧
      ((build2rows 5 5 3 3 1).2.1.getD 0 []).getD 1 0 =
        ((build2rows 5 5 3 3 1).2.1.getD 1 []).getD 0 0 ∧
      ((build2rows 5 5 3 3 1).2.2.getD 0 []).getD 1 0 =
        ((build2rows 5 5 3 3 1).2.2.getD 1 []).getD 0 0) ∧
    (((gather2 (fun i _ => Xcol.getD i 0) (build1rows 7 3 1).1
        (build1rows 7 3 1).2).getD 0 []).getD 1 0 =
      ((gather2 (fun i _ => Xcol.getD i 0) (build1rows 7 3 1).1
        (build1rows 7 3 1).2).getD 1 []).getD 0 0 ∧
    ((gather3 (fun a b _ => at2 X5x5 a b) (build2rows 5 5 3 3 1).1
        (build2rows 5 5 3 3 1).2.1 (build2rows 5 5 3 3 1).2.2).getD 0 []).getD 1 0 =
      ((gather3 (fun a b _ => at2 X5x5 a b) (build2rows 5 5 3 3 1).1
        (build2rows 5 5 3 3 1).2.1 (build2rows 5 5 3 3 1).2.2).getD 1 []).getD 0 0) :=
  ⟨⟨by decide, by decide, by decide, by decide, by decide, by decide, by decide,
      by decide, by decide, by decide, by decide, by decide, by decide⟩,
    C8_gather_consistency 7 3 1 0 1 1 0 5 5 3 3 0 1 1 0 (fun i _ => Xcol.getD i 0)
      (fun a b _ => at2 X5x5 a b) (by decide) (by decide) (by decide) (by decide)
      (by decide) (by decide) (by decide) (by decide) (by decide) (by decide)
      (by decide) (by decide) (by decide)⟩

/-! ### Claim C9 -/

theorem corr1_entry (X : Nat → Int) (n k : Nat) (W : Nat → Int) (p : Nat)
    (hp : p < n - k + 1) :
    (corr1 X n k W).getD p 0 = ∑ j ∈ Finset.range k, X (p + j) * W j := by
  rw [corr1, matvec]
  rw [getD_map _ _ p
    (by rw [List.length_map, ixGen, List.length_map, List.length_range]; exact hp) 0 []]
  rw [getD_map (fun r => r.map X) (ixGen n k) p
    (by rw [ixGen, List.length_map, List.length_range]; exact hp) [] []]
  rw [show (ixGen n k).getD p [] = (List.range k).map (fun j => p + j) from by
    rw [ixGen]; exact getD_map_range _ _ p [] hp]
  rw [List.map_map]
  rw [dotL_eq_sum _ _ (by simp)]
  rw [List.length_map, List.length_range]
  refine Finset.sum_congr rfl (fun c hc => ?_)
  rw [getD_map_range _ k c 0 (Finset.mem_range.mp hc),
    getD_map_range _ k c 0 (Finset.mem_range.mp hc)]
  rfl

/-- C9: the matmul pipeline computes cross-correlation, not flipped
convolution — in the 1D one-channel case, row p of Xhat . W is the sum over
j < k of X (p + j) * W j; it coincides with the naive double-sum convolution
(f cnv g) p when the column filter is the element-wise reversal of g
(W j = g (M - j)), which is exactly what the source does: its W = [1, 0, -1]
is the reversal of g = [-1, 0, 1], and its Z equals the cnv outputs. -/
theorem C9_cross_correlation_not_convolution (n k p : Nat) (X W : Nat → Int)
    (f g : Int → Int) (M n2 p2 : Nat) (hp : p < n - k + 1)
    (hp2 : p2 < n2 - (2 * M + 1) + 1) :
    (corr1 X n k W).getD p 0 = ∑ j ∈ Finset.range k, X (p + j) * W j ∧
    (corr1 (fun i => f ((i : Int) - (M : Int))) n2 (2 * M + 1)
        (fun j => g ((M : Int) - (j : Int)))).getD p2 0 = cnv f g M (p2 : Int) ∧
    Wcol = ([-1, 0, 1] : List Int).reverse ∧
    Zsrc = [-2, 2, 1, 2, 1] ∧
    (List.range 5).map (fun n0 => cnv fdict gdict 1 (n0 : Int)) = [-2, 2, 1, 2, 1] := by
  refine ⟨corr1_entry X n k W p hp, ?_, by decide, by decide, by decide⟩
  rw [corr1_entry _ n2 (2 * M + 1) _ p2 hp2]
  exact sum_reversed_eq_cnv f g M p2

/-- C9 witness: the source's pipeline (n = 7, k = 3) at row 2, and the
reversal identity at the source's f, g, M = 1, position 2. -/
theorem C9_witness :
    (2 < 7 - 3 + 1 ∧ 2 < 7 - (2 * 1 + 1) + 1) ∧
    ((corr1 (fun i => Xcol.getD i 0) 7 3 (fun j => Wcol.getD j 0)).getD 2 0 =
      ∑ j ∈ Finset.range 3, (fun i => Xcol.getD i 0) (2 + j) * (fun j0 => Wcol.getD j0 0) j ∧
    (corr1 (fun i => fdict ((i : Int) - ((1 : Nat) : Int))) 7 (2 * 1 + 1)
        (fun j => gdict (((1 : Nat) : Int) - (j : Int)))).getD 2 0 =
      cnv fdict gdict 1 ((2 : Nat) : Int) ∧
    Wcol = ([-1, 0, 1] : List Int).reverse ∧
    Zsrc = [-2, 2, 1, 2, 1] ∧
    (List.range 5).map (fun n0 => cnv fdict gdict 1 (n0 : Int)) = [-2, 2, 1, 2, 1]) :=
  ⟨⟨by decide, by decide⟩,
    C9_cross_correlation_not_convolution 7 3 2 (fun i => Xcol.getD i 0)
      (fun j => Wcol.getD j 0) fdict gdict 1 7 2 (by decide) (by decide)⟩

/-! ### Claim C10 -/

/-- C10: every entry of every generated window index array is in bounds for
the axis it indexes — h indices below n_h, w indices below n_w, channel
indices below d — so the gather is defined at every (row, column) position. -/
theorem C10_index_bounds (n k d nh nw kh kw p c q c2 : Nat)
    (hkn : k ≤ n) (hkhn : kh ≤ nh) (hkwn : kw ≤ nw)
    (hp : p < n - k + 1) (hc : c < k * d)
    (hq : q < (nh - kh + 1) * (nw - kw + 1)) (hc2 : c2 < kh * (kw * d)) :
    ((build1rows n k d).1.getD p []).getD c 0 < n ∧
    ((build1rows n k d).2.getD p []).getD c 0 < d ∧
    ((build2rows nh nw kh kw d).1.getD q []).getD c2 0 < nh ∧
    ((build2rows nh nw kh kw d).2.1.getD q []).getD c2 0 < nw ∧
    ((build2rows nh nw kh kw d).2.2.getD q []).getD c2 0 < d := by
  have hd : 0 < d := pos_of_lt_mul hc
  have hkwd : 0 < kw * d := pos_of_lt_mul hc2
  have hkw : 0 < kw := by
    rcases Nat.eq_zero_or_pos kw with h0 | h0
    · subst h0; simp at hkwd
    · exact h0
  have hdivk : c / d < k := Nat.div_lt_of_lt_mul (Nat.mul_comm k d ▸ hc)
  have hoffH : offH kw d c2 < kh := by
    rw [offH]
    exact Nat.div_lt_of_lt_mul (Nat.mul_comm kh (kw * d) ▸ hc2)
  have hoffW : offW kw d c2 < kw := Nat.mod_lt _ hkw
  have hoffC : offC d c2 < d := Nat.mod_lt _ hd
  have hqdiv : q / (nw - kw + 1) < nh - kh + 1 :=
    Nat.div_lt_of_lt_mul (Nat.mul_comm (nh - kh + 1) (nw - kw + 1) ▸ hq)
  have hqmod : q % (nw - kw + 1) < nw - kw + 1 := Nat.mod_lt _ (by omega)
  have hb2f : (build2rows nh nw kh kw d).1.getD q [] =
      win2H kh kw d (q / (nw - kw + 1)) := by
    rw [build2rows]; exact anchorRows_getD _ _ _ q hq
  have hb2m : (build2rows nh nw kh kw d).2.1.getD q [] =
      win2W kh kw d (q % (nw - kw + 1)) := by
    rw [build2rows]; exact anchorRows_getD _ _ _ q hq
  have hb2s : (build2rows nh nw kh kw d).2.2.getD q [] = win2C kh kw d := by
    rw [build2rows]; exact anchorRows_getD _ _ _ q hq
  refine ⟨?_, ?_, ?_, ?_, ?_⟩
  · rw [build1rows_fst_getD n k d p hp, win1H_getD k d p c hc]
    omega
  · rw [build1rows_snd_getD n k d p hp, win1C_getD k d c hc]
    exact Nat.mod_lt _ hd
  · rw [hb2f, win2H_getD kh kw d _ c2 hc2]
    omega
  · rw [hb2m, win2W_getD kh kw d _ c2 hc2]
    omega
  · rw [hb2s, win2C_getD kh kw d c2 hc2]
    exact hoffC

/-- C10 witness: the source's 1D two-channel shapes (n = 7, k = 3, d = 2,
last row and column) and 2D two-channel shapes (5 x 5 x 2 input, 3 x 3 x 2
filter, last row and column). -/
theorem C10_witness :
    (3 ≤ 7 ∧ 3 ≤ 5 ∧ 3 ≤ 5 ∧ 4 < 7 - 3 + 1 ∧ 5 < 3 * 2 ∧
      8 < (5 - 3 + 1) * (5 - 3 + 1) ∧ 17 < 3 * (3 * 2)) ∧
    (((build1rows 7 3 2).1.getD 4 []).getD 5 0 < 7 ∧
    ((build1rows 7 3 2).2.getD 4 []).getD 5 0 < 2 ∧
    ((build2rows 5 5 3 3 2).1.getD 8 []).getD 17 0 < 5 ∧
    ((build2rows 5 5 3 3 2).2.1.getD 8 []).getD 17 0 < 5 ∧
    ((build2rows 5 5 3 3 2).2.2.getD 8 []).getD 17 0 < 2) :=
  ⟨by decide,
    C10_index_bounds 7 3 2 5 5 3 3 4 5 8 17 (by decide) (by decide) (by decide)
      (by decide) (by decide) (by decide) (by decide)⟩

end ConvSpec
